import Mathlib

/-!
Verification model of the deepagents sandbox backends
(`libs/deepagents/deepagents/backends/sandbox.py`).

`BaseSandbox` implements every file operation by generating a small
self-contained Python script and running it through an abstract
`execute` primitive.  We embed those scripts as Lean functions over an
explicit filesystem state `Fs` and embed the Python post-processing
performed by each `BaseSandbox` method.  `GrpcSandbox` methods are
embedded as functions of the RPC outcome they receive.

The embedding treats the script text generated by `str.format` as the
intended script; this is accurate whenever the raw-interpolated
`file_path` parameter contains no characters that would break a
single-quoted Python literal (backslash, single quote, newline, and for
f-strings, braces).  The `content`, `old` and `new` parameters are
base64-encoded by the source, so they reach the scripts byte-exactly;
the model therefore passes them through unchanged.
-/

namespace DeepAgents

/-- The single-quote character, used to build the error strings that the
Python source writes with quoted path/argument interpolations. -/
def squo : String := String.mk [Char.ofNat 39]

/-- Model of Python `str.isspace` on the ASCII whitespace characters;
all strings manipulated by the embedded scripts are framed by ASCII
characters, so the Unicode cases of `isspace` never arise here. -/
def pyIsSpace (c : Char) : Bool :=
  c = ' ' || c = '\t' || c = '\n' || c = '\r' || c = '\x0b' || c = '\x0c'

/-- Strip trailing Python whitespace from a character list. -/
def rstripChars (l : List Char) : List Char :=
  (l.reverse.dropWhile pyIsSpace).reverse

/-- Model of Python `str.rstrip()` (no argument). -/
def pyRstrip (s : String) : String := (rstripChars s.toList).asString

/-- Model of Python `str.strip()` (no argument). -/
def pyStrip (s : String) : String :=
  ((rstripChars s.toList).dropWhile pyIsSpace).asString

/-- `containsChars needle hay` models Python `needle in hay`. -/
def containsChars (needle : List Char) : List Char → Bool
  | [] => needle.isEmpty
  | c :: t => needle.isPrefixOf (c :: t) || containsChars needle t

/-- Model of the Python substring test `needle in hay`. -/
def pyContains (needle hay : String) : Bool :=
  containsChars needle.toList hay.toList

/-- Whether a character list is nonempty and ends in a character that
Python `rstrip()` would not remove. -/
def endsNonWS (l : List Char) : Bool :=
  match l.reverse with
  | [] => false
  | c :: _ => !pyIsSpace c

/-- Universal-newline translation performed by Python text-mode reads
(`open(path, "r")` with the default `newline=None`): both `"\r\n"` and a
lone `"\r"` become `"\n"`. -/
def univNL : List Char → List Char
  | [] => []
  | c :: t =>
    if c = '\r' then
      match t with
      | '\n' :: t2 => '\n' :: univNL t2
      | [] => ['\n']
      | c2 :: t2 => '\n' :: univNL (c2 :: t2)
    else c :: univNL t

/-- Model of Python `s.split("\n")`: e.g. `"" ↦ [""]`, `"a\n" ↦ ["a", ""]`. -/
def splitLinesChars : List Char → List (List Char)
  | [] => [[]]
  | c :: t =>
    let r := splitLinesChars t
    if c = '\n' then [] :: r
    else
      match r with
      | [] => [[c]]
      | h :: rest => (c :: h) :: rest

/-- The lines produced by Python `f.readlines()` on text `u`, with each
line's trailing `"\n"` already removed (the read script applies
`line.rstrip("\n")` to every line before printing it). -/
def pyLinesChars (u : List Char) : List (List Char) :=
  let parts := splitLinesChars u
  match parts.getLast? with
  | some l => if l = [] then parts.dropLast else parts
  | none => parts

/-- The content lines of a file as seen by a Python text-mode read:
universal-newline translation followed by `readlines`. -/
def pyLines (s : String) : List String :=
  (pyLinesChars (univNL s.toList)).map List.asString

/-- Worker for `pyCount`: counts left-to-right non-overlapping
occurrences.  Each step consumes at least one character when the
pattern is nonempty, so `fuel = s.length` suffices. -/
def pyCountGo (old : List Char) : Nat → List Char → Nat
  | _, [] => 0
  | 0, _ => 0
  | fuel + 1, c :: t =>
    if old.isPrefixOf (c :: t) then 1 + pyCountGo old fuel ((c :: t).drop old.length)
    else pyCountGo old fuel t

/-- Model of Python `text.count(old)`: non-overlapping occurrences;
an empty pattern is counted once per position, including both ends. -/
def pyCount (old text : String) : Nat :=
  if old.toList = [] then text.toList.length + 1
  else pyCountGo old.toList text.toList.length text.toList

/-- Worker for `pyReplaceAll`. -/
def pyReplaceAllGo (old new : List Char) : Nat → List Char → List Char
  | _, [] => []
  | 0, s => s
  | fuel + 1, c :: t =>
    if old.isPrefixOf (c :: t) then new ++ pyReplaceAllGo old new fuel ((c :: t).drop old.length)
    else c :: pyReplaceAllGo old new fuel t

/-- Model of Python `text.replace(old, new)`: replaces every
non-overlapping occurrence left-to-right; an empty pattern inserts
`new` at every position including both ends. -/
def pyReplaceAll (old new text : String) : String :=
  if old.toList = [] then
    (new.toList ++ text.toList.foldr (fun c acc => c :: (new.toList ++ acc)) []).asString
  else (pyReplaceAllGo old.toList new.toList text.toList.length text.toList).asString

/-- Worker for `pyReplace1`. -/
def pyReplace1Go (old new : List Char) : Nat → List Char → List Char
  | _, [] => []
  | 0, s => s
  | fuel + 1, c :: t =>
    if old.isPrefixOf (c :: t) then new ++ (c :: t).drop old.length
    else c :: pyReplace1Go old new fuel t

/-- Model of Python `text.replace(old, new, 1)`. -/
def pyReplace1 (old new text : String) : String :=
  if old.toList = [] then (new.toList ++ text.toList).asString
  else (pyReplace1Go old.toList new.toList text.toList.length text.toList).asString

/-- The character for decimal digit `d`. -/
def digitChar (d : Nat) : Char := Char.ofNat (48 + d)

/-- Worker for `natToDecimal`; `fuel = n` suffices since dividing by 10
strictly shrinks a number of two or more digits. -/
def natToDecimalFuel : Nat → Nat → List Char
  | 0, n => [digitChar n]
  | fuel + 1, n =>
    if n < 10 then [digitChar n]
    else natToDecimalFuel fuel (n / 10) ++ [digitChar (n % 10)]

/-- Decimal rendering of a natural number, modelling the digit sequence
Python's `d` format specifier produces. -/
def natToDecimal (n : Nat) : List Char := natToDecimalFuel n n

/-- Model of Python `format(n, "6d")`: the decimal digits right-aligned
in a field of minimum width 6, padded with spaces. -/
def padLeft6 (n : Nat) : List Char :=
  if (natToDecimal n).length < 6 then
    List.replicate (6 - (natToDecimal n).length) ' ' ++ natToDecimal n
  else natToDecimal n

/-- One formatted output line of the read script:
`f"{line_num:6d}\t{line_content}"`. -/
def formattedLineChars (n : Nat) (content : List Char) : List Char :=
  padLeft6 n ++ '\t' :: content

/-- Number a list of lines consecutively starting at `k`. -/
def numberFromChars (k : Nat) : List (List Char) → List (List Char)
  | [] => []
  | l :: t => formattedLineChars k l :: numberFromChars (k + 1) t

/-- Combined stdout of a sequence of Python `print` calls: each printed
line followed by a newline. -/
def joinOutChars (ls : List (List Char)) : List Char :=
  ls.foldr (fun l acc => l ++ '\n' :: acc) []

/-- Lines joined by single newlines (Python `"\n".join`). -/
def intercalNL : List (List Char) → List Char
  | [] => []
  | [l] => l
  | l :: l2 :: t => l ++ '\n' :: intercalNL (l2 :: t)

/-- String-level view of one formatted read-script line. -/
def formattedLine (n : Nat) (content : String) : String :=
  (formattedLineChars n content.toList).asString

/-- String-level consecutive line numbering starting at `k`. -/
def numberLines (k : Nat) (ls : List String) : List String :=
  (numberFromChars k (ls.map String.toList)).map List.asString

/-- String-level newline join. -/
def joinLines (ls : List String) : String :=
  (intercalNL (ls.map String.toList)).asString

/-- Everything after the first tab, or nothing when there is none. -/
def afterFirstTab : List Char → List Char
  | [] => []
  | c :: t => if c = '\t' then t else afterFirstTab t

/-- Remove a line's number field: everything up to and including the
first tab goes; a line without a tab is kept whole. -/
def stripTabPrefix (l : List Char) : List Char :=
  if l.contains '\t' then afterFirstTab l else l

/-- The inverse of the read formatting, written from the claim's words
("after stripping the line-number formatting that read prepends"):
split into lines, drop each line's number-and-tab prefix, rejoin. -/
def stripLineNumberPrefixes (s : String) : String :=
  (intercalNL ((splitLinesChars s.toList).map stripTabPrefix)).asString

/-! ## Data model

The result records below are the entities of the backend protocol
(`deepagents/backends/protocol.py`).  That module is not part of the
sources provided, so the records are modelled from the spec.  -/

/-- Modelled from the spec: `ExecuteResponse` of `protocol.py` (absent
from `src/`), §3 — `{output (merged stdout+stderr), exit_code, signal?,
truncated}`.  The `signal` field is never consulted by the code under
study and is omitted. -/
structure ExecuteResponse where
  output : String
  exit_code : Int
  truncated : Bool
deriving Repr, DecidableEq

/-- Modelled from the spec: `WriteResult` of `protocol.py` (absent from
`src/`), §3 — `{path?, error?, files_update}` with `files_update`
always null for these external-storage backends. -/
structure WriteResult where
  path : Option String
  error : Option String
  files_update : Option Unit
deriving Repr, DecidableEq

/-- Modelled from the spec: `EditResult` of `protocol.py` (absent from
`src/`), §3 — `{path?, error?, occurrences?, files_update}`. -/
structure EditResult where
  path : Option String
  error : Option String
  occurrences : Option Nat
  files_update : Option Unit
deriving Repr, DecidableEq

/-- Modelled from the spec: `FileInfo` of `protocol.py` (absent from
`src/`), §3 — `{path, is_dir, size?, modified_at?}`. -/
structure FileInfo where
  path : String
  is_dir : Bool
  size : Option Nat
  modified_at : Option String
deriving Repr, DecidableEq

/-- Modelled from the spec: `FileUploadResponse` of `protocol.py`
(absent from `src/`), §3 — `{path, error?}`. -/
structure FileUploadResponse where
  path : String
  error : Option String
deriving Repr, DecidableEq

/-- Modelled from the spec: `FileDownloadResponse` of `protocol.py`
(absent from `src/`), §3 — `{path, content?, error?}`; the byte content
is modelled as an opaque string payload. -/
structure FileDownloadResponse where
  path : String
  content : Option String
  error : Option String
deriving Repr, DecidableEq

/-- One filesystem entry of the sandbox environment the generated
scripts run against: its absolute path, whether it is a directory, its
text content (empty for directories) and its `st_mtime` stamp
(modelled as an integer). -/
structure FsEntry where
  path : String
  is_dir : Bool
  content : String
  mtime : Int
deriving Repr, DecidableEq

/-- The sandbox filesystem state: its entries, plus the set of paths on
which `os.scandir` raises `PermissionError`. -/
structure Fs where
  entries : List FsEntry
  denied : List String
deriving Repr, DecidableEq

/-- Look up the entry at a path. -/
def Fs.find (fs : Fs) (p : String) : Option FsEntry :=
  fs.entries.find? (fun e => e.path == p)

/-- Model of `os.path.exists`. -/
def Fs.pathExists (fs : Fs) (p : String) : Bool := (fs.find p).isSome

/-- Model of `os.path.isfile`. -/
def Fs.isFile (fs : Fs) (p : String) : Bool :=
  match fs.find p with
  | some e => !e.is_dir
  | none => false

/-- Create a fresh file (the write script's `open(path, "w")` on a new
path).  Parent directories are implicit in this path-keyed model. -/
def Fs.createFile (fs : Fs) (p content : String) : Fs :=
  ⟨fs.entries ++ [⟨p, false, content, 0⟩], fs.denied⟩

/-- Overwrite the content of an existing file (the edit script's
`open(path, "w")` on an existing path). -/
def Fs.setContent (fs : Fs) (p content : String) : Fs :=
  ⟨fs.entries.map (fun e => if e.path == p then ⟨e.path, e.is_dir, content, e.mtime⟩ else e),
   fs.denied⟩

/-! ## The generated scripts of `BaseSandbox` -/

/-- Model of `_READ_COMMAND_TEMPLATE`: checks `os.path.isfile`, prints
the not-found marker and exits 1 when the check fails; prints the
empty-file sentinel for a zero-byte file; otherwise prints the window
`lines[offset : offset + limit]` with 1-based right-aligned line
numbers starting at `offset + 1`, tab-separated from the content. -/
def readScript (fs : Fs) (file_path : String) (offset limit : Nat) : ExecuteResponse :=
  match fs.find file_path with
  | none => ⟨"Error: File not found\n", 1, false⟩
  | some e =>
    if e.is_dir then ⟨"Error: File not found\n", 1, false⟩
    else if e.content = "" then
      ⟨"System reminder: File exists but has empty contents\n", 0, false⟩
    else
      let sel := ((pyLinesChars (univNL e.content.toList)).drop offset).take limit
      ⟨(joinOutChars (numberFromChars (offset + 1) sel)).asString, 0, false⟩

/-- The uniform not-found string `BaseSandbox.read` returns:
`f"Error: File '{file_path}' not found"`. -/
def readNotFoundError (file_path : String) : String :=
  "Error: File " ++ squo ++ file_path ++ squo ++ " not found"

/-- Model of `BaseSandbox.read`: runs the read script, right-strips its
output, and collapses a non-zero exit or a detected
`"Error: File not found"` marker in the output to the uniform
not-found string. -/
def BaseSandbox.read (fs : Fs) (file_path : String) (offset limit : Nat) : String :=
  let result := readScript fs file_path offset limit
  let output := pyRstrip result.output
  if result.exit_code ≠ 0 || pyContains "Error: File not found" output then
    readNotFoundError file_path
  else output

/-- The write script's failure message,
`f"Error: File \'{file_path}\' already exists"`. -/
def alreadyExistsMsg (file_path : String) : String :=
  "Error: File " ++ squo ++ file_path ++ squo ++ " already exists"

/-- Model of `_WRITE_COMMAND_TEMPLATE`: fails with the already-exists
message on stderr (merged into the output by `2>&1`, with `print`'s
trailing newline) and exit code 1 if the path exists; otherwise decodes
the base64 content — which yields the original content exactly — and
creates the file. -/
def writeScript (fs : Fs) (file_path content : String) : ExecuteResponse × Fs :=
  if fs.pathExists file_path then
    (⟨alreadyExistsMsg file_path ++ "\n", 1, false⟩, fs)
  else
    (⟨"", 0, false⟩, fs.createFile file_path content)

/-- Model of `BaseSandbox.write`: runs the write script; on a non-zero
exit or an `"Error:"` marker in the output returns a `WriteResult` with
the stripped output as its error (or a generic failure message if
empty), otherwise a success result carrying the path. -/
def BaseSandbox.write (fs : Fs) (file_path content : String) : WriteResult × Fs :=
  let (result, fs1) := writeScript fs file_path content
  if result.exit_code ≠ 0 || pyContains "Error:" result.output then
    let stripped := pyStrip result.output
    let msg := if stripped = "" then "Failed to write file " ++ squo ++ file_path ++ squo
               else stripped
    (⟨none, some msg, none⟩, fs1)
  else
    (⟨some file_path, none, none⟩, fs1)

/-- Stand-in for the Python traceback printed when the edit script's
`open(file_path, "r")` raises (file missing, or path is a directory);
the interpreter exits with code 1.  The exact traceback text is
immaterial: `BaseSandbox.edit` reads only the exit code on this
branch. -/
def tracebackOutput (file_path : String) : String :=
  "Traceback (most recent call last): No such file or directory: " ++
    squo ++ file_path ++ squo ++ "\n"

/-- Model of `_EDIT_COMMAND_TEMPLATE`: reads the file in text mode
(universal-newline translation), counts occurrences of `old`, exits 1
when none, exits 2 when several and `replace_all` is false, and
otherwise writes the replaced text back and prints the count.  When the
file cannot be opened the uncaught Python exception terminates the
interpreter with exit code 1. -/
def editScript (fs : Fs) (file_path old new : String) (replace_all : Bool) :
    ExecuteResponse × Fs :=
  match fs.find file_path with
  | none => (⟨tracebackOutput file_path, 1, false⟩, fs)
  | some e =>
    if e.is_dir then (⟨tracebackOutput file_path, 1, false⟩, fs)
    else
      let text := (univNL e.content.toList).asString
      let count := pyCount old text
      if count = 0 then (⟨"", 1, false⟩, fs)
      else if count > 1 && !replace_all then (⟨"", 2, false⟩, fs)
      else
        let replaced := if replace_all then pyReplaceAll old new text else pyReplace1 old new text
        (⟨(natToDecimal count).asString ++ "\n", 0, false⟩, fs.setContent file_path replaced)

/-- The `BaseSandbox.edit` error for exit code 1:
`f"Error: String not found in file: '{old_string}'"`. -/
def editNotFoundError (old_string : String) : String :=
  "Error: String not found in file: " ++ squo ++ old_string ++ squo

/-- The `BaseSandbox.edit` error for exit code 2:
`f"Error: String '{old_string}' appears multiple times. ..."`. -/
def editMultipleError (old_string : String) : String :=
  "Error: String " ++ squo ++ old_string ++ squo ++
    " appears multiple times. Use replace_all=True to replace all occurrences."

/-- The `BaseSandbox.edit` error for any other non-zero exit code:
`f"Error: File '{file_path}' not found"`. -/
def editFileNotFoundError (file_path : String) : String :=
  "Error: File " ++ squo ++ file_path ++ squo ++ " not found"

/-- Model of Python `int()` as applied by `BaseSandbox.edit` to the
digit string printed by a successful edit script. -/
def parseNatDigits (s : String) : Nat :=
  s.toList.foldl (fun acc c => 10 * acc + (c.toNat - 48)) 0

/-- Model of `BaseSandbox.edit`: runs the edit script and maps exit
code 1 to the string-not-found error, exit code 2 to the
multiple-occurrences error, any other non-zero exit code to the
file-not-found error, and a zero exit to a success result whose
occurrence count is parsed from the script's output. -/
def BaseSandbox.edit (fs : Fs) (file_path old_string new_string : String)
    (replace_all : Bool) : EditResult × Fs :=
  let (result, fs1) := editScript fs file_path old_string new_string replace_all
  if result.exit_code = 1 then
    (⟨none, some (editNotFoundError old_string), none, none⟩, fs1)
  else if result.exit_code = 2 then
    (⟨none, some (editMultipleError old_string), none, none⟩, fs1)
  else if result.exit_code ≠ 0 then
    (⟨none, some (editFileNotFoundError file_path), none, none⟩, fs1)
  else
    (⟨some file_path, none, some (parseNatDigits (pyStrip result.output)), none⟩, fs1)

/-! ## Listing and glob -/

/-- Whether a path names a directory that `os.chdir` / `os.scandir`
accept; the root `"/"` always does. -/
def Fs.isDirPath (fs : Fs) (p : String) : Bool :=
  p = "/" || (match fs.find p with
              | some e => e.is_dir
              | none => false)

/-- Whether a string's final character is `/`. -/
def endsWithSlash (p : String) : Bool :=
  match p.toList.getLast? with
  | some c => c = '/'
  | none => false

/-- POSIX join of a base directory and a relative name. -/
def pathJoin (base m : String) : String :=
  if endsWithSlash base then base ++ m else base ++ "/" ++ m

/-- `os.stat().st_size` of an entry: the byte length of its content. -/
def FsEntry.statSize (e : FsEntry) : Nat := e.content.utf8ByteSize

/-- Decimal rendering of an integer. -/
def intToDecimal (i : Int) : List Char :=
  if i < 0 then '-' :: natToDecimal i.natAbs else natToDecimal i.toNat

/-- The textual form `json.dumps` gives an `st_mtime` stamp; stamps are
modelled as whole-second floats, printed as `<seconds>.0`. -/
def mtimeRepr (i : Int) : List Char := intToDecimal i ++ ".0".toList

/-- A name that `json.dumps` emits without escaping: no double quote,
no backslash, no control characters. -/
def jsonSafeChar (c : Char) : Bool :=
  c ≠ '"' && c ≠ '\\' && 32 ≤ c.toNat

/-- All characters of the string are emitted unescaped by `json.dumps`. -/
def jsonSafeName (m : String) : Bool := m.toList.all jsonSafeChar

/-- The JSON line the glob script prints for one match,
`json.dumps({'path': m, 'size': ..., 'mtime': ..., 'is_dir': ...})`,
modelled for names that `json.dumps` emits unescaped. -/
def globJsonLineChars (m : List Char) (size : Nat) (mtime : Int) (is_dir : Bool) :
    List Char :=
  "\x7b\"path\": \"".toList ++ m ++ "\", \"size\": ".toList ++ natToDecimal size ++
    ", \"mtime\": ".toList ++ mtimeRepr mtime ++ ", \"is_dir\": ".toList ++
    (if is_dir then "true\x7d".toList else "false\x7d".toList)

/-- The `os.stat` loop of the glob script over the sorted match list:
one JSON line per match; a match that no longer resolves raises, ending
the interpreter with exit code 1 after the lines already printed. -/
def globEmit (fs : Fs) (base : String) : List String → List (List Char) × Int
  | [] => ([], 0)
  | m :: t =>
    match fs.find (pathJoin base m) with
    | none => ([], 1)
    | some e =>
      let rest := globEmit fs base t
      (globJsonLineChars m.toList e.statSize e.mtime e.is_dir :: rest.1, rest.2)

/-- Boolean code-point comparison of character lists, the order Python
`sorted` uses on strings. -/
def charListLe : List Char → List Char → Bool
  | [], _ => true
  | _ :: _, [] => false
  | a :: s, b :: t =>
    if a.toNat < b.toNat then true
    else if b.toNat < a.toNat then false
    else charListLe s t

/-- `strLe a b` iff `a` sorts no later than `b` (code-point order). -/
def strLe (a b : String) : Bool := charListLe a.toList b.toList

/-- Insert into a `strLe`-sorted list, keeping it sorted. -/
def insertSorted (x : String) : List String → List String
  | [] => [x]
  | y :: t => if strLe x y then x :: y :: t else y :: insertSorted x t

/-- Model of Python `sorted` on strings. -/
def sortStr (l : List String) : List String := l.foldr insertSorted []

/-- Model of `_GLOB_COMMAND_TEMPLATE`.  `glob.glob(pattern,
recursive=True)` is Python standard-library behaviour outside this
repository, so the list `ms` of relative paths it returns is a
parameter; the rest of the script is embedded: `os.chdir(path)` (a
missing directory raises, exiting 1 with stderr discarded by
`2>/dev/null`), sorting the matches, and printing one JSON metadata
line per match. -/
def globScript (fs : Fs) (path : String) (ms : List String) : ExecuteResponse :=
  if !fs.isDirPath path then ⟨"", 1, false⟩
  else
    let emitted := globEmit fs path (sortStr ms)
    ⟨(joinOutChars emitted.1).asString, emitted.2, false⟩

/-- Drop a literal prefix, or fail. -/
def stripPrefixChars (pre l : List Char) : Option (List Char) :=
  if pre.isPrefixOf l then some (l.drop pre.length) else none

/-- Split at the first occurrence of `sep`, or fail when `sep` does not
occur (Python `str.partition` without the separator component). -/
def splitFirstChars (sep : List Char) : List Char → Option (List Char × List Char)
  | [] => if sep.isEmpty then some ([], []) else none
  | c :: t =>
    if sep.isPrefixOf (c :: t) then some ([], (c :: t).drop sep.length)
    else
      match splitFirstChars sep t with
      | some r => some (c :: r.1, r.2)
      | none => none

/-- Model of `json.loads` as used by `BaseSandbox.glob_info`: parses
one line of the shape the glob script emits and yields the two fields
the caller reads, `data['path']` and `data['is_dir']`; any other line
fails (the caller skips it, as it skips a `JSONDecodeError`). -/
def parseGlobLine (line : List Char) : Option (List Char × Bool) :=
  (stripPrefixChars "\x7b\"path\": \"".toList line).bind fun r1 =>
  (splitFirstChars "\", \"size\": ".toList r1).bind fun mr =>
  (splitFirstChars ", \"mtime\": ".toList mr.2).bind fun sr =>
  (splitFirstChars ", \"is_dir\": ".toList sr.2).bind fun tr =>
  if tr.2 = "true\x7d".toList then some (mr.1, true)
  else if tr.2 = "false\x7d".toList then some (mr.1, false)
  else none

/-- Model of Python `s.split("\n")` on strings. -/
def pySplitNL (s : String) : List String := (splitLinesChars s.toList).map List.asString

/-- Model of `BaseSandbox.glob_info`: runs the glob script, returns
`[]` for empty (stripped) output, and otherwise parses each line,
skipping unparsable ones and — as the source does — retaining only the
`path` and `is_dir` fields of each parsed record. -/
def BaseSandbox.glob_info (fs : Fs) (path : String) (ms : List String) : List FileInfo :=
  let result := globScript fs path ms
  let output := pyStrip result.output
  if output = "" then []
  else
    (pySplitNL output).filterMap fun line =>
      (parseGlobLine line.toList).map fun pd => ⟨pd.1.asString, pd.2, none, none⟩

/-- The JSON line the glob script prints for a match that resolves in
the filesystem (the `os.stat` of a match that does not resolve raises
instead). -/
def globLineOf (fs : Fs) (base m : String) : List Char :=
  match fs.find (pathJoin base m) with
  | some e => globJsonLineChars m.toList e.statSize e.mtime e.is_dir
  | none => []

/-- The `FileInfo` that `BaseSandbox.glob_info` builds for one match:
its relative path and `is_dir` flag; no size or modification time. -/
def globEntryInfo (fs : Fs) (base m : String) : FileInfo :=
  ⟨m,
   (match fs.find (pathJoin base m) with
    | some e => e.is_dir
    | none => false),
   none, none⟩

/-- The JSON line the listing script prints for one entry,
`json.dumps({'path': entry.name, 'is_dir': ...})`. -/
def lsJsonLineChars (name : List Char) (is_dir : Bool) : List Char :=
  "\x7b\"path\": \"".toList ++ name ++ "\", \"is_dir\": ".toList ++
    (if is_dir then "true\x7d".toList else "false\x7d".toList)

/-- The name of the entry as a direct child of `dir`, when it is one. -/
def childName? (dir full : String) : Option String :=
  let pre := (if endsWithSlash dir then dir else dir ++ "/").toList
  if pre.isPrefixOf full.toList then
    let rest := full.toList.drop pre.length
    if rest ≠ [] && !rest.contains '/' then some rest.asString else none
  else none

/-- The `(name, is_dir)` pairs `os.scandir` yields for a directory, in
entry order (the enumeration order of `scandir` is unspecified; the
model uses the order of `Fs.entries`). -/
def Fs.children (fs : Fs) (p : String) : List (String × Bool) :=
  fs.entries.filterMap fun e => (childName? p e.path).map fun n => (n, e.is_dir)

/-- Model of the listing script of `BaseSandbox.ls_info`: a denied path
raises `PermissionError` and a missing one `FileNotFoundError`, both
caught, leaving the output empty with exit code 0; a path naming a
file raises an uncaught `NotADirectoryError` (exit 1, stderr discarded
by `2>/dev/null`); a directory yields one JSON line per child. -/
def lsScript (fs : Fs) (path : String) : ExecuteResponse :=
  if fs.denied.contains path then ⟨"", 0, false⟩
  else if fs.isDirPath path then
    ⟨(joinOutChars ((fs.children path).map fun nd => lsJsonLineChars nd.1.toList nd.2)).asString,
     0, false⟩
  else if fs.pathExists path then ⟨"", 1, false⟩
  else ⟨"", 0, false⟩

/-- Model of `json.loads` as used by `BaseSandbox.ls_info`: parses one
line of the shape the listing script emits, yielding `data['path']`
and `data['is_dir']`. -/
def parseLsLine (line : List Char) : Option (List Char × Bool) :=
  (stripPrefixChars "\x7b\"path\": \"".toList line).bind fun nr1 =>
  (splitFirstChars "\", \"is_dir\": ".toList nr1).bind fun nr =>
  if nr.2 = "true\x7d".toList then some (nr.1, true)
  else if nr.2 = "false\x7d".toList then some (nr.1, false)
  else none

/-- Model of `BaseSandbox.ls_info`: runs the listing script, splits the
stripped output on newlines, skips blank lines, and parses each
remaining line, skipping unparsable ones. -/
def BaseSandbox.ls_info (fs : Fs) (path : String) : List FileInfo :=
  (pySplitNL (pyStrip (lsScript fs path).output)).filterMap fun line =>
    if line = "" then none
    else (parseLsLine line.toList).map fun nd => ⟨nd.1.asString, nd.2, none, none⟩

/-! ## The RPC backend

`GrpcSandbox` methods are embedded as functions of the outcome of the
single RPC they issue: either the remote reply, or a transport-level
`grpc.RpcError` carrying diagnostic details. -/

/-- Outcome of one RPC invocation. -/
inductive RpcOutcome (α : Type) where
  | ok (response : α)
  | rpcError (details : String)
deriving Repr, DecidableEq

/-- Model of `GrpcSandbox._handle_rpc_error`. -/
def handleRpcError (details operation : String) : String :=
  "Error: RPC communication failed during " ++ operation ++ ": " ++ details

/-- The client-side state of a `GrpcSandbox`: its endpoint and the
cached sandbox id, if any. -/
structure GrpcState where
  rpc_endpoint : String
  sandbox_id : Option String
deriving Repr, DecidableEq

/-- Model of the `GrpcSandbox.id` property: a cached id is returned
without touching the network; otherwise a `GetId` call is issued —
consuming `response` — and a successful reply is cached, while a
transport failure returns the endpoint-derived fallback
`f"grpc-sandbox-{self._rpc_endpoint}"` without caching anything.
Returns the value, the state after the access, and whether `GetId`
was invoked. -/
def GrpcSandbox.idAccess (st : GrpcState) (response : RpcOutcome String) :
    String × GrpcState × Bool :=
  match st.sandbox_id with
  | some v => (v, st, false)
  | none =>
    match response with
    | .ok v => (v, ⟨st.rpc_endpoint, some v⟩, true)
    | .rpcError _ => ("grpc-sandbox-" ++ st.rpc_endpoint, st, true)

/-- One entry of an `UploadFiles` reply (protobuf message; an empty
`error` string means success). -/
structure UploadResultMsg where
  path : String
  error : String
deriving Repr, DecidableEq

/-- One entry of a `DownloadFiles` reply. -/
structure DownloadResultMsg where
  path : String
  content : String
  error : String
deriving Repr, DecidableEq

/-- Model of `GrpcSandbox.upload_files`: on a reply, one
`FileUploadResponse` per reply entry with empty protobuf errors mapped
to `none`; on a transport failure, one `permission_denied` response per
requested file, in input order. -/
def GrpcSandbox.upload_files (files : List (String × String))
    (response : RpcOutcome (List UploadResultMsg)) : List FileUploadResponse :=
  match response with
  | .ok results =>
    results.map fun r => ⟨r.path, if r.error = "" then none else some r.error⟩
  | .rpcError _ => files.map fun f => ⟨f.1, some "permission_denied"⟩

/-- Model of `GrpcSandbox.download_files`: on a reply, one
`FileDownloadResponse` per reply entry (content suppressed on
per-entry error); on a transport failure, one `file_not_found`
response per requested path, in input order. -/
def GrpcSandbox.download_files (paths : List String)
    (response : RpcOutcome (List DownloadResultMsg)) : List FileDownloadResponse :=
  match response with
  | .ok results =>
    results.map fun r =>
      ⟨r.path, if r.error = "" then some r.content else none,
       if r.error = "" then none else some r.error⟩
  | .rpcError _ => paths.map fun p => ⟨p, none, some "file_not_found"⟩

/-- One item of a streamed `ListInfo` reply (protobuf message). -/
structure ListItemMsg where
  path : String
  is_dir : Bool
  size : Nat
  modified_at : String
deriving Repr, DecidableEq

/-- Model of `GrpcSandbox.ls_info`: collects the streamed items, using
protobuf truthiness for the optional fields (`if item.size:`,
`if item.modified_at:`); any `grpc.RpcError` yields `[]`. -/
def GrpcSandbox.ls_info (response : RpcOutcome (List ListItemMsg)) : List FileInfo :=
  match response with
  | .ok items =>
    items.map fun it =>
      ⟨it.path, it.is_dir,
       if it.size = 0 then none else some it.size,
       if it.modified_at = "" then none else some it.modified_at⟩
  | .rpcError _ => []

/-- A `WriteFile` reply (protobuf message; empty `error` means
success). -/
structure WriteReplyMsg where
  path : String
  error : String
deriving Repr, DecidableEq

/-- Modelled from the spec: the Sandbox I/O Server's `WriteFile`
handler, which is not among the sources (§4.2: "The Sandbox I/O Server
implements the file existence check atomically"; §4.1: `write` creates
a new file only if absent and fails with an "already exists" error when
the target is present). -/
def specServerWriteFile (fs : Fs) (file_path content : String) : WriteReplyMsg × Fs :=
  if fs.pathExists file_path then
    (⟨"", alreadyExistsMsg file_path⟩, fs)
  else
    (⟨file_path, ""⟩, fs.createFile file_path content)

/-- Model of `GrpcSandbox.write` against the spec-modelled server:
`transport = some details` models a `grpc.RpcError` (the request never
reaches the server); otherwise the server's reply is mapped to a
`WriteResult` exactly as the source does. -/
def GrpcSandbox.write (fs : Fs) (file_path content : String)
    (transport : Option String) : WriteResult × Fs :=
  match transport with
  | some details => (⟨none, some (handleRpcError details "write"), none⟩, fs)
  | none =>
    let reply := specServerWriteFile fs file_path content
    if reply.1.error ≠ "" then (⟨none, some reply.1.error, none⟩, reply.2)
    else (⟨some reply.1.path, none, none⟩, reply.2)

/-! ## Basic bridging lemmas -/

@[simp] theorem toList_append (s t : String) : (s ++ t).toList = s.toList ++ t.toList := rfl

@[simp] theorem toList_asString (l : List Char) : l.asString.toList = l := rfl

@[simp] theorem asString_toList (s : String) : s.toList.asString = s := rfl

theorem rstripChars_of_endsNonWS (l : List Char) (h : endsNonWS l = true) :
    rstripChars l = l := by
  unfold endsNonWS at h
  unfold rstripChars
  cases hr : l.reverse with
  | nil => rw [hr] at h; simp at h
  | cons c t =>
    rw [hr] at h
    simp only [Bool.not_eq_true'] at h
    have hd : List.dropWhile pyIsSpace (c :: t) = c :: t := by
      rw [List.dropWhile_cons, h]; rfl
    rw [hd]
    exact (List.reverse_eq_iff.mp hr).symm

theorem endsNonWS_append (l1 l2 : List Char) (h : endsNonWS l2 = true) :
    endsNonWS (l1 ++ l2) = true := by
  unfold endsNonWS at *
  rw [List.reverse_append]
  cases hr : l2.reverse with
  | nil => rw [hr] at h; simp at h
  | cons c t => rw [hr] at h; simpa using h

theorem rstripChars_append_newline (l : List Char) :
    rstripChars (l ++ ['\n']) = rstripChars l := by
  unfold rstripChars
  rw [List.reverse_append]
  simp [pyIsSpace]

/-! ## Claim C1 -/

/-- C1: the claim asserts three mutually distinct error messages for
the three `edit` failure conditions.  The code violates this: the edit
script's `open` raises an uncaught `FileNotFoundError` on a missing
file, so the interpreter exits with code 1 — the exit code reserved
for "string not found" — and `BaseSandbox.edit` returns the
zero-occurrence message.  The dedicated file-not-found branch (any
exit code other than 0, 1, 2) is unreachable for a missing file.
This theorem evaluates the model at the failing input: editing
`/missing.txt` in an empty filesystem yields the string-not-found
message, which differs from the message the claim demands. -/
theorem c1_missing_file_maps_to_string_not_found :
    (BaseSandbox.edit ⟨[], []⟩ "/missing.txt" "old" "new" false).1.error
        = some (editNotFoundError "old")
      ∧ editNotFoundError "old" ≠ editFileNotFoundError "/missing.txt" := by
  constructor
  · rfl
  · decide

/-! ## Claim C2 -/

/-- C2 counterexample: the claim says that once any value (real or
fallback) has been returned, no later access re-attempts the `GetId`
network call.  In the code the fallback is returned without being
cached (`_sandbox_id` stays `None`), so the very next access issues
`GetId` again: with a stub that fails once and then answers
`"server-id"`, the first access returns the fallback and the second
access hits the network (and gets the server value). -/
theorem c2_fallback_not_cached_counterexample :
    (GrpcSandbox.idAccess ⟨"localhost:50051", none⟩ (.rpcError "unavailable")).1
        = "grpc-sandbox-localhost:50051"
      ∧ (GrpcSandbox.idAccess ⟨"localhost:50051", none⟩ (.rpcError "unavailable")).2.1
        = ⟨"localhost:50051", none⟩
      ∧ (GrpcSandbox.idAccess
          (GrpcSandbox.idAccess ⟨"localhost:50051", none⟩ (.rpcError "unavailable")).2.1
          (.ok "server-id")).2.2 = true := by
  refine ⟨rfl, rfl, rfl⟩

/-- C2 (amended): on a cache miss the first access issues `GetId`; a
failed call returns the deterministic endpoint-derived fallback
`"grpc-sandbox-" ++ endpoint` without raising, but does not cache it,
so the state is unchanged and later accesses re-attempt the call; a
successful call caches its value; once a value is cached every access
returns it without touching the network. -/
theorem c2_id_lazy_caching (ep d v c : String) (r : RpcOutcome String) :
    GrpcSandbox.idAccess ⟨ep, none⟩ (.rpcError d)
        = ("grpc-sandbox-" ++ ep, ⟨ep, none⟩, true)
      ∧ GrpcSandbox.idAccess ⟨ep, none⟩ (.ok v) = (v, ⟨ep, some v⟩, true)
      ∧ GrpcSandbox.idAccess ⟨ep, some c⟩ r = (c, ⟨ep, some c⟩, false) := by
  refine ⟨rfl, rfl, rfl⟩

/-! ## Claim C9 -/

/-- C9: on a transport-level RPC failure, `upload_files` and
`download_files` return exactly one entry per requested path, in input
order, every entry carrying the generic backend error code
(`permission_denied` for uploads, `file_not_found` for downloads);
no exception propagates (the functions are total). -/
theorem c9_batch_failure_reports_every_path (files : List (String × String))
    (paths : List String) (d1 d2 : String) :
    GrpcSandbox.upload_files files (.rpcError d1)
        = files.map (fun f => ⟨f.1, some "permission_denied"⟩)
      ∧ GrpcSandbox.download_files paths (.rpcError d2)
        = paths.map (fun p => ⟨p, none, some "file_not_found"⟩)
      ∧ (GrpcSandbox.upload_files files (.rpcError d1)).map FileUploadResponse.path
        = files.map Prod.fst
      ∧ (GrpcSandbox.download_files paths (.rpcError d2)).map FileDownloadResponse.path
        = paths := by
  refine ⟨rfl, rfl, ?_, ?_⟩
  · simp [GrpcSandbox.upload_files, Function.comp_def]
  · simp [GrpcSandbox.download_files, Function.comp_def]

/-! ## Claim C8 -/

/-- C8: for a path naming a missing or permission-denied directory,
`ls_info` returns an empty list on both backends: the shell backend's
script swallows `FileNotFoundError`/`PermissionError` and prints
nothing, and the RPC backend maps any `grpc.RpcError` (and equally an
empty stream) to `[]`.  The return type is a list, so no error string
can be returned, and both functions are total, so nothing is raised. -/
theorem c8_ls_info_missing_dir_empty (fs : Fs) (p : String) (d : String)
    (h : (fs.isDirPath p = false ∧ fs.pathExists p = false)
          ∨ p ∈ fs.denied) :
    BaseSandbox.ls_info fs p = []
      ∧ GrpcSandbox.ls_info (.rpcError d) = []
      ∧ GrpcSandbox.ls_info (.ok []) = [] := by
  refine ⟨?_, rfl, rfl⟩
  have houtput : (lsScript fs p).output = "" := by
    unfold lsScript
    by_cases hd : p ∈ fs.denied
    · simp [hd]
    · rcases h with ⟨hdir, hex⟩ | hden
      · simp [hd, hdir, hex]
      · exact absurd hden hd
  unfold BaseSandbox.ls_info
  rw [houtput]
  rfl

/-- Witness for C8 at a concrete input: an empty filesystem and the
path `/missing`. -/
theorem c8_ls_info_missing_dir_empty_witness :
    ((Fs.isDirPath ⟨[], []⟩ "/missing" = false ∧ Fs.pathExists ⟨[], []⟩ "/missing" = false)
        ∨ "/missing" ∈ ([] : List String))
      ∧ BaseSandbox.ls_info ⟨[], []⟩ "/missing" = [] := by
  refine ⟨Or.inl ⟨by decide, by decide⟩, ?_⟩
  exact (c8_ls_info_missing_dir_empty ⟨[], []⟩ "/missing" "boom"
    (Or.inl ⟨by decide, by decide⟩)).1

/-! ## Claim C10 -/

/-- C10: an existing, non-empty file whose selected window, as
formatted by the read script, contains the literal marker
`"Error: File not found"` is reported by `BaseSandbox.read` with the
uniform not-found error string, even though the read script itself
exits successfully. -/
theorem c10_marker_in_content_misreported_as_missing (fs : Fs) (p : String)
    (e : FsEntry) (offset limit : Nat)
    (hfind : fs.find p = some e) (hdir : e.is_dir = false) (hne : e.content ≠ "")
    (hmark : pyContains "Error: File not found"
        (pyRstrip (readScript fs p offset limit).output) = true) :
    (readScript fs p offset limit).exit_code = 0
      ∧ BaseSandbox.read fs p offset limit = readNotFoundError p := by
  constructor
  · unfold readScript
    rw [hfind]
    simp [hdir, hne]
  · unfold BaseSandbox.read
    simp [hmark]

/-- Witness for C10: a file whose sole line is the marker itself. -/
theorem c10_marker_in_content_misreported_as_missing_witness :
    Fs.find ⟨[⟨"/f", false, "Error: File not found", 3⟩], []⟩ "/f"
        = some ⟨"/f", false, "Error: File not found", 3⟩
      ∧ BaseSandbox.read ⟨[⟨"/f", false, "Error: File not found", 3⟩], []⟩ "/f" 0 2000
        = readNotFoundError "/f" := by
  refine ⟨by decide, ?_⟩
  exact (c10_marker_in_content_misreported_as_missing
    ⟨[⟨"/f", false, "Error: File not found", 3⟩], []⟩ "/f"
    ⟨"/f", false, "Error: File not found", 3⟩ 0 2000
    (by decide) rfl (by decide) (by decide)).2

/-! ## Claim C5 -/

theorem dropWhile_nonws_head (c : Char) (t : List Char) (h : pyIsSpace c = false) :
    List.dropWhile pyIsSpace (c :: t) = c :: t := by
  rw [List.dropWhile_cons, h]; rfl

/-- `pyStrip` of a printed line whose text starts and ends with
non-whitespace characters removes exactly the trailing newline. -/
theorem pyStrip_wrap (m : String) (h1 : endsNonWS m.toList = true)
    (h2 : m.toList.dropWhile pyIsSpace = m.toList) :
    pyStrip (m ++ "\n") = m := by
  unfold pyStrip
  have hsplit : (m ++ "\n").toList = m.toList ++ ['\n'] := rfl
  rw [hsplit, rstripChars_append_newline, rstripChars_of_endsNonWS _ h1, h2, asString_toList]

theorem endsNonWS_alreadyExistsMsg (p : String) :
    endsNonWS (alreadyExistsMsg p).toList = true := by
  unfold alreadyExistsMsg
  rw [toList_append]
  exact endsNonWS_append _ _ (by decide)

theorem alreadyExistsMsg_head (p : String) :
    (alreadyExistsMsg p).toList
      = 'E' :: ("rror: File ".toList ++ squo.toList ++ p.toList ++ squo.toList
                  ++ " already exists".toList) := by
  unfold alreadyExistsMsg
  simp

theorem pyStrip_alreadyExists (p : String) :
    pyStrip (alreadyExistsMsg p ++ "\n") = alreadyExistsMsg p := by
  refine pyStrip_wrap _ (endsNonWS_alreadyExistsMsg p) ?_
  rw [alreadyExistsMsg_head]
  exact dropWhile_nonws_head _ _ (by decide)

theorem alreadyExistsMsg_ne_empty (p : String) : alreadyExistsMsg p ≠ "" := by
  intro hh
  have := congrArg String.toList hh
  rw [alreadyExistsMsg_head] at this
  simp at this

theorem pathExists_createFile_self (fs : Fs) (p c : String) :
    (fs.createFile p c).pathExists p = true := by
  unfold Fs.pathExists Fs.find Fs.createFile
  simp only [List.find?_append]
  cases hf : fs.entries.find? (fun e => e.path == p) <;> simp [List.find?]

/-- A successful `BaseSandbox.write` can only have come from a path
that did not exist. -/
theorem write_success_not_exists (fs : Fs) (p c : String)
    (h : (BaseSandbox.write fs p c).1.error = none) : fs.pathExists p = false := by
  by_cases hex : fs.pathExists p = true
  · exfalso
    unfold BaseSandbox.write writeScript at h
    rw [hex] at h
    simp at h
  · simpa using hex

theorem pyContains_errormark_empty : pyContains "Error:" "" = false := by decide

/-- A successful `BaseSandbox.write` creates the file. -/
theorem write_success_creates (fs : Fs) (p c : String)
    (h : (BaseSandbox.write fs p c).1.error = none) :
    (BaseSandbox.write fs p c).2 = fs.createFile p c := by
  have hex := write_success_not_exists fs p c h
  unfold BaseSandbox.write writeScript
  rw [hex]
  simp [pyContains_errormark_empty]

/-- C5: a successful `write` immediately followed by a second `write`
to the same path, on both backends, yields a result whose `error`
field carries the already-exists message on the second call, while the
filesystem is left exactly as after the first write.  Both functions
are total, so no exception is raised.  The RPC conjunct runs against
the spec-modelled Sandbox I/O Server with a healthy transport. -/
theorem c5_second_write_already_exists (fs gfs : Fs) (p c1 c2 gp gc1 gc2 : String)
    (h : (BaseSandbox.write fs p c1).1.error = none)
    (hg : (GrpcSandbox.write gfs gp gc1 none).1.error = none) :
    ((BaseSandbox.write (BaseSandbox.write fs p c1).2 p c2).1.error
        = some (alreadyExistsMsg p)
      ∧ (BaseSandbox.write (BaseSandbox.write fs p c1).2 p c2).2
        = (BaseSandbox.write fs p c1).2)
      ∧ ((GrpcSandbox.write (GrpcSandbox.write gfs gp gc1 none).2 gp gc2 none).1.error
          = some (alreadyExistsMsg gp)
        ∧ (GrpcSandbox.write (GrpcSandbox.write gfs gp gc1 none).2 gp gc2 none).2
          = (GrpcSandbox.write gfs gp gc1 none).2) := by
  constructor
  · rw [write_success_creates fs p c1 h]
    have hex2 := pathExists_createFile_self fs p c1
    constructor
    · unfold BaseSandbox.write writeScript
      rw [hex2]
      simp [pyStrip_alreadyExists, alreadyExistsMsg_ne_empty]
    · unfold BaseSandbox.write writeScript
      rw [hex2]
      simp
  · have hgex : gfs.pathExists gp = false := by
      by_cases hex : gfs.pathExists gp = true
      · exfalso
        unfold GrpcSandbox.write specServerWriteFile at hg
        rw [hex] at hg
        simp [alreadyExistsMsg_ne_empty] at hg
      · simpa using hex
    have hgfs1 : (GrpcSandbox.write gfs gp gc1 none).2 = gfs.createFile gp gc1 := by
      unfold GrpcSandbox.write specServerWriteFile
      rw [hgex]
      simp
    rw [hgfs1]
    have hex2 := pathExists_createFile_self gfs gp gc1
    constructor
    · unfold GrpcSandbox.write specServerWriteFile
      rw [hex2]
      simp [alreadyExistsMsg_ne_empty]
    · unfold GrpcSandbox.write specServerWriteFile
      rw [hex2]
      simp [alreadyExistsMsg_ne_empty]

/-- Witness for C5: both backends, a fresh path in an empty
filesystem, written twice. -/
theorem c5_second_write_already_exists_witness :
    (BaseSandbox.write ⟨[], []⟩ "/f" "one").1.error = none
      ∧ (GrpcSandbox.write ⟨[], []⟩ "/f" "one" none).1.error = none
      ∧ (BaseSandbox.write (BaseSandbox.write ⟨[], []⟩ "/f" "one").2 "/f" "two").1.error
        = some (alreadyExistsMsg "/f") := by
  refine ⟨by rfl, by rfl, ?_⟩
  exact ((c5_second_write_already_exists ⟨[], []⟩ ⟨[], []⟩ "/f" "one" "two" "/f" "one" "two"
    (by rfl) (by rfl)).1).1

/-! ## Claim C7 -/

/-- C7 counterexample: the claim quantifies over every file containing
`old` exactly twice, but the edit script reads the file in text mode,
so carriage returns are rewritten to newlines before counting.  A file
whose stored content `"xa\rya\r"` contains `"a\r"` exactly twice is
edited with `replace_all = true`: the claim demands a success with
`occurrences = 2`, yet the code counts zero occurrences in the
translated text and fails with the string-not-found error. -/
theorem c7_carriage_return_counterexample :
    pyCount "a\r" "xa\rya\r" = 2
      ∧ (BaseSandbox.edit ⟨[⟨"/f", false, "xa\rya\r", 0⟩], []⟩ "/f" "a\r" "Z" true).1.occurrences
        ≠ some 2
      ∧ (BaseSandbox.edit ⟨[⟨"/f", false, "xa\rya\r", 0⟩], []⟩ "/f" "a\r" "Z" true).1.error
        = some (editNotFoundError ("a" ++ "\r")) := by
  refine ⟨by decide, by decide, by rfl⟩

theorem edit_snd_eq_editScript_snd (fs : Fs) (p o n : String) (ra : Bool) :
    (BaseSandbox.edit fs p o n ra).2 = (editScript fs p o n ra).2 := by
  unfold BaseSandbox.edit
  generalize editScript fs p o n ra = x
  obtain ⟨result, fs1⟩ := x
  dsimp only
  split
  · rfl
  · split
    · rfl
    · split
      · rfl
      · rfl

/-- Every run of the edit script either leaves the filesystem
untouched or terminates successfully. -/
theorem editScript_cases (fs : Fs) (p o n : String) (ra : Bool) :
    (editScript fs p o n ra).2 = fs ∨ (editScript fs p o n ra).1.exit_code = 0 := by
  unfold editScript
  cases fs.find p with
  | none => exact Or.inl rfl
  | some e =>
    by_cases hd : e.is_dir = true
    · exact Or.inl (by simp [hd])
    · rw [Bool.not_eq_true] at hd
      simp only [hd]
      by_cases h0 : pyCount o (univNL e.content.data).asString = 0
      · simp [h0]
      · by_cases h1 : 1 < pyCount o (univNL e.content.data).asString ∧ ra = false
        · simp [h0, h1]
        · simp [h0, h1]

/-- An edit whose script exits 0 reports no error. -/
theorem edit_exit_zero_no_error (fs : Fs) (p o n : String) (ra : Bool)
    (hz : (editScript fs p o n ra).1.exit_code = 0) :
    (BaseSandbox.edit fs p o n ra).1.error = none := by
  unfold BaseSandbox.edit
  generalize heq : editScript fs p o n ra = x
  rw [heq] at hz
  obtain ⟨result, fs1⟩ := x
  simp only at hz
  dsimp only
  simp [hz]

theorem edit_error_some_exit_nonzero (fs : Fs) (p o n : String) (ra : Bool)
    (h : (BaseSandbox.edit fs p o n ra).1.error ≠ none) :
    (editScript fs p o n ra).1.exit_code ≠ 0 := by
  intro hz
  exact h (edit_exit_zero_no_error fs p o n ra hz)

theorem editScript_nonzero_fs_unchanged (fs : Fs) (p o n : String) (ra : Bool)
    (h : (editScript fs p o n ra).1.exit_code ≠ 0) : (editScript fs p o n ra).2 = fs := by
  rcases editScript_cases fs p o n ra with hc | hc
  · exact hc
  · exact absurd hc h

/-- C7 (amended): with "containing `old` exactly twice" read on the
file's text-mode-decoded content (universal-newline translation, under
which `\r` and `\r\n` are read as `\n` — for carriage-return-free
contents this coincides with the stored content), an edit with
`replace_all = false` fails with the multiple-occurrences error and
leaves the filesystem unchanged; with `replace_all = true` it replaces
both occurrences, reports `occurrences = 2`, and rewrites the file with
the full replacement; and, in general, every failing edit leaves the
filesystem unchanged. -/
theorem c7_double_occurrence_edit (fs : Fs) (p old new : String) (e : FsEntry)
    (hfind : fs.find p = some e) (hdir : e.is_dir = false)
    (hcount : pyCount old (univNL e.content.toList).asString = 2) :
    ((BaseSandbox.edit fs p old new false).1.error = some (editMultipleError old)
      ∧ (BaseSandbox.edit fs p old new false).2 = fs)
      ∧ ((BaseSandbox.edit fs p old new true).1
          = ⟨some p, none, some 2, none⟩
        ∧ (BaseSandbox.edit fs p old new true).2
          = fs.setContent p
              (pyReplaceAll old new (univNL e.content.toList).asString))
      ∧ (∀ (fs2 : Fs) (p2 o2 n2 : String) (ra : Bool),
          (BaseSandbox.edit fs2 p2 o2 n2 ra).1.error ≠ none →
          (BaseSandbox.edit fs2 p2 o2 n2 ra).2 = fs2) := by
  have hcount2 : pyCount old (univNL e.content.data).asString = 2 := hcount
  have hscript2 : editScript fs p old new false = (⟨"", 2, false⟩, fs) := by
    unfold editScript
    rw [hfind]
    simp [hdir, hcount, hcount2]
  have hscript0 : editScript fs p old new true
      = (⟨(natToDecimal 2).asString ++ "\n", 0, false⟩,
         fs.setContent p (pyReplaceAll old new (univNL e.content.toList).asString)) := by
    unfold editScript
    rw [hfind]
    simp [hdir, hcount, hcount2]
  refine ⟨?_, ?_, ?_⟩
  · unfold BaseSandbox.edit
    rw [hscript2]
    exact ⟨rfl, rfl⟩
  · unfold BaseSandbox.edit
    rw [hscript0]
    exact ⟨by rfl, rfl⟩
  · intro fs2 p2 o2 n2 ra herr
    rw [edit_snd_eq_editScript_snd]
    exact editScript_nonzero_fs_unchanged fs2 p2 o2 n2 ra
      (edit_error_some_exit_nonzero fs2 p2 o2 n2 ra herr)

/-- Witness for C7 at a concrete input: the file `"abab"` contains
`"a"` exactly twice. -/
theorem c7_double_occurrence_edit_witness :
    Fs.find ⟨[⟨"/f", false, "abab", 0⟩], []⟩ "/f" = some ⟨"/f", false, "abab", 0⟩
      ∧ pyCount "a" (univNL ("abab").toList).asString = 2
      ∧ (BaseSandbox.edit ⟨[⟨"/f", false, "abab", 0⟩], []⟩ "/f" "a" "Z" false).1.error
        = some (editMultipleError "a") := by
  refine ⟨by decide, by decide, ?_⟩
  exact ((c7_double_occurrence_edit ⟨[⟨"/f", false, "abab", 0⟩], []⟩ "/f" "a" "Z"
    ⟨"/f", false, "abab", 0⟩ (by decide) rfl (by decide)).1).1

/-! ## The formatted read window (shared by C6 and C4) -/

theorem joinOutChars_eq_intercalNL (ls : List (List Char)) (h : ls ≠ []) :
    joinOutChars ls = intercalNL ls ++ ['\n'] := by
  induction ls with
  | nil => exact absurd rfl h
  | cons l t ih =>
    cases t with
    | nil => rfl
    | cons l2 t2 =>
      show l ++ '\n' :: joinOutChars (l2 :: t2) = (l ++ '\n' :: intercalNL (l2 :: t2)) ++ ['\n']
      rw [ih (by simp)]
      simp

theorem getLastD_irrel {α : Type} (a : α) (l : List α) (d1 d2 : α) :
    (a :: l).getLastD d1 = (a :: l).getLastD d2 := by
  rw [List.getLastD_cons, List.getLastD_cons]

theorem endsNonWS_intercalNL (ls : List (List Char)) (h : ls ≠ [])
    (hl : endsNonWS (ls.getLastD []) = true) : endsNonWS (intercalNL ls) = true := by
  induction ls with
  | nil => exact absurd rfl h
  | cons l t ih =>
    cases t with
    | nil => simpa [List.getLastD] using hl
    | cons l2 t2 =>
      show endsNonWS (l ++ '\n' :: intercalNL (l2 :: t2)) = true
      have hl2 : endsNonWS ((l2 :: t2).getLastD []) = true := by
        rw [List.getLastD_cons]
        rw [List.getLastD_cons, List.getLastD_cons] at hl
        exact hl
      have h2 : endsNonWS (intercalNL (l2 :: t2)) = true := ih (by simp) hl2
      have hsh : l ++ '\n' :: intercalNL (l2 :: t2)
          = (l ++ ['\n']) ++ intercalNL (l2 :: t2) := by simp
      rw [hsh]
      exact endsNonWS_append _ _ h2

theorem splitLinesChars_noNL (l : List Char) (h : '\n' ∉ l) : splitLinesChars l = [l] := by
  induction l with
  | nil => rfl
  | cons c t ih =>
    have hc : ¬c = '\n' := fun e => h (e ▸ List.mem_cons_self c t)
    have ht : '\n' ∉ t := fun m => h (List.mem_cons_of_mem _ m)
    simp only [splitLinesChars]
    rw [ih ht]
    simp [hc]

theorem splitLinesChars_newline_append (l r : List Char) (h : '\n' ∉ l) :
    splitLinesChars (l ++ '\n' :: r) = l :: splitLinesChars r := by
  induction l with
  | nil => simp [splitLinesChars]
  | cons c t ih =>
    have hc : ¬c = '\n' := fun e => h (e ▸ List.mem_cons_self c t)
    have ht : '\n' ∉ t := fun m => h (List.mem_cons_of_mem _ m)
    simp only [List.cons_append, splitLinesChars, List.append_eq]
    rw [ih ht]
    simp [hc]

theorem splitLinesChars_intercalNL (ls : List (List Char)) (h : ls ≠ [])
    (hnl : ∀ l ∈ ls, '\n' ∉ l) : splitLinesChars (intercalNL ls) = ls := by
  induction ls with
  | nil => exact absurd rfl h
  | cons l t ih =>
    cases t with
    | nil => exact splitLinesChars_noNL l (hnl l (List.mem_cons_self _ _))
    | cons l2 t2 =>
      show splitLinesChars (l ++ '\n' :: intercalNL (l2 :: t2)) = l :: l2 :: t2
      rw [splitLinesChars_newline_append _ _ (hnl l (List.mem_cons_self _ _))]
      rw [ih (by simp) (fun x hx => hnl x (List.mem_cons_of_mem _ hx))]

theorem univNL_no_cr (l : List Char) (h : '\r' ∉ l) : univNL l = l := by
  induction l with
  | nil => rfl
  | cons c t ih =>
    have hc : ¬c = '\r' := fun e => h (e ▸ List.mem_cons_self c t)
    have ht : '\r' ∉ t := fun m => h (List.mem_cons_of_mem _ m)
    unfold univNL
    rw [if_neg hc, ih ht]

theorem mem_natToDecimalFuel (fuel : Nat) :
    ∀ n, n ≤ fuel → ∀ c ∈ natToDecimalFuel fuel n, ∃ d, d < 10 ∧ c = digitChar d := by
  induction fuel with
  | zero =>
    intro n hn c hc
    simp [natToDecimalFuel] at hc
    exact ⟨n, by omega, hc⟩
  | succ f ih =>
    intro n hn c hc
    by_cases h10 : n < 10
    · simp [natToDecimalFuel, h10] at hc
      exact ⟨n, h10, hc⟩
    · simp [natToDecimalFuel, h10] at hc
      rcases hc with hc | hc
      · have hdiv : n / 10 ≤ f := by
          have := Nat.div_lt_self (by omega : 0 < n) (by omega : 1 < 10)
          omega
        exact ih (n / 10) hdiv c hc
      · exact ⟨n % 10, Nat.mod_lt _ (by omega), hc⟩

theorem mem_natToDecimal (n : Nat) (c : Char) (hc : c ∈ natToDecimal n) :
    ∃ d, d < 10 ∧ c = digitChar d :=
  mem_natToDecimalFuel n n (Nat.le_refl n) c hc

theorem digitChar_props :
    ∀ d, d < 10 → digitChar d ≠ '\t' ∧ digitChar d ≠ '\n' ∧ digitChar d ≠ ','
        ∧ pyIsSpace (digitChar d) = false := by decide

theorem mem_padLeft6 (n : Nat) (c : Char) (h : c ∈ padLeft6 n) :
    c = ' ' ∨ ∃ d, d < 10 ∧ c = digitChar d := by
  unfold padLeft6 at h
  by_cases hlen : (natToDecimal n).length < 6
  · rw [if_pos hlen] at h
    rcases List.mem_append.mp h with h | h
    · exact Or.inl (List.eq_of_mem_replicate h)
    · exact Or.inr (mem_natToDecimal n c h)
  · rw [if_neg hlen] at h
    exact Or.inr (mem_natToDecimal n c h)

theorem tab_not_mem_padLeft6 (n : Nat) : '\t' ∉ padLeft6 n := by
  intro h
  rcases mem_padLeft6 n _ h with h | ⟨d, hd, h⟩
  · exact absurd h (by decide)
  · exact (digitChar_props d hd).1 h.symm

theorem nl_not_mem_padLeft6 (n : Nat) : '\n' ∉ padLeft6 n := by
  intro h
  rcases mem_padLeft6 n _ h with h | ⟨d, hd, h⟩
  · exact absurd h (by decide)
  · exact (digitChar_props d hd).2.1 h.symm

theorem formattedLineChars_shape (k : Nat) (l : List Char) :
    formattedLineChars k l = (padLeft6 k ++ ['\t']) ++ l := by
  unfold formattedLineChars
  rw [List.append_assoc]
  rfl

theorem nl_not_mem_formattedLineChars (k : Nat) (l : List Char) (h : '\n' ∉ l) :
    '\n' ∉ formattedLineChars k l := by
  intro hm
  unfold formattedLineChars at hm
  rcases List.mem_append.mp hm with hm | hm
  · exact nl_not_mem_padLeft6 k hm
  · rcases List.mem_cons.mp hm with hm | hm
    · exact absurd hm (by decide)
    · exact h hm

theorem afterFirstTab_beyond (pre rest : List Char) (h : '\t' ∉ pre) :
    afterFirstTab (pre ++ '\t' :: rest) = rest := by
  induction pre with
  | nil => simp [afterFirstTab]
  | cons c t ih =>
    have hc : ¬c = '\t' := fun e => h (e ▸ List.mem_cons_self c t)
    have ht : '\t' ∉ t := fun m => h (List.mem_cons_of_mem _ m)
    simp only [List.cons_append, afterFirstTab, List.append_eq]
    rw [ih ht]
    simp [hc]

theorem stripTabPrefix_formattedLineChars (k : Nat) (l : List Char) :
    stripTabPrefix (formattedLineChars k l) = l := by
  unfold stripTabPrefix
  have hc : (formattedLineChars k l).contains '\t' = true := by
    have hm : '\t' ∈ formattedLineChars k l := by
      unfold formattedLineChars
      exact List.mem_append.mpr (Or.inr (List.mem_cons_self _ _))
    exact List.elem_iff.mpr hm
  rw [if_pos hc]
  unfold formattedLineChars
  exact afterFirstTab_beyond _ _ (tab_not_mem_padLeft6 k)

theorem map_stripTabPrefix_numberFromChars (k : Nat) (parts : List (List Char)) :
    (numberFromChars k parts).map stripTabPrefix = parts := by
  induction parts generalizing k with
  | nil => rfl
  | cons l t ih =>
    simp only [numberFromChars, List.map_cons]
    rw [stripTabPrefix_formattedLineChars, ih]

theorem numberFromChars_ne_nil (k : Nat) (parts : List (List Char)) (h : parts ≠ []) :
    numberFromChars k parts ≠ [] := by
  cases parts with
  | nil => exact absurd rfl h
  | cons l t => simp [numberFromChars]

theorem nl_free_numberFromChars (k : Nat) (parts : List (List Char))
    (h : ∀ l ∈ parts, '\n' ∉ l) : ∀ l ∈ numberFromChars k parts, '\n' ∉ l := by
  induction parts generalizing k with
  | nil => intro l hl; simp [numberFromChars] at hl
  | cons a t ih =>
    intro l hl
    simp only [numberFromChars] at hl
    rcases List.mem_cons.mp hl with hl | hl
    · rw [hl]
      exact nl_not_mem_formattedLineChars k a (h a (List.mem_cons_self _ _))
    · exact ih (k + 1) (fun x hx => h x (List.mem_cons_of_mem _ hx)) l hl

theorem endsNonWS_formattedLineChars (k : Nat) (l : List Char)
    (h : endsNonWS l = true) : endsNonWS (formattedLineChars k l) = true := by
  rw [formattedLineChars_shape]
  exact endsNonWS_append _ _ h

theorem endsNonWS_last_numberFromChars (k : Nat) (parts : List (List Char))
    (hne : parts ≠ []) (h : endsNonWS (parts.getLastD []) = true) :
    endsNonWS ((numberFromChars k parts).getLastD []) = true := by
  induction parts generalizing k with
  | nil => exact absurd rfl hne
  | cons a t ih =>
    cases t with
    | nil =>
      simp only [numberFromChars, List.getLastD] at *
      exact endsNonWS_formattedLineChars k a (by simpa [List.getLastD] using h)
    | cons b t2 =>
      show endsNonWS ((formattedLineChars k a :: numberFromChars (k + 1) (b :: t2)).getLastD [])
        = true
      have hbt : endsNonWS ((b :: t2).getLastD []) = true := by
        rw [List.getLastD_cons]
        rw [List.getLastD_cons, List.getLastD_cons] at h
        exact h
      have hrec := ih (k + 1) (by simp) hbt
      cases hnf : numberFromChars (k + 1) (b :: t2) with
      | nil => exact absurd hnf (numberFromChars_ne_nil _ _ (by simp))
      | cons x xs =>
        rw [List.getLastD_cons, List.getLastD_cons]
        rw [hnf, List.getLastD_cons] at hrec
        exact hrec

/-- The central equation: for an existing non-empty regular file whose
selected window's last line ends in a non-whitespace character (or is
empty) and whose formatted window does not contain the not-found
marker, `BaseSandbox.read` returns exactly the newline-join of the
numbered window lines. -/
theorem read_window_eq (fs : Fs) (p : String) (e : FsEntry) (offset limit : Nat)
    (hfind : fs.find p = some e) (hdir : e.is_dir = false) (hne : e.content ≠ "")
    (hlast : ((pyLinesChars (univNL e.content.toList)).drop offset).take limit = []
        ∨ endsNonWS ((((pyLinesChars (univNL e.content.toList)).drop offset).take limit).getLastD [])
          = true)
    (hmark : containsChars ("Error: File not found".toList)
        (intercalNL (numberFromChars (offset + 1)
          (((pyLinesChars (univNL e.content.toList)).drop offset).take limit))) = false) :
    BaseSandbox.read fs p offset limit
      = (intercalNL (numberFromChars (offset + 1)
          (((pyLinesChars (univNL e.content.toList)).drop offset).take limit))).asString := by
  have hscript : readScript fs p offset limit
      = ⟨(joinOutChars (numberFromChars (offset + 1)
            (((pyLinesChars (univNL e.content.toList)).drop offset).take limit))).asString,
         0, false⟩ := by
    unfold readScript
    rw [hfind]
    simp [hdir, hne]
  have hout : pyRstrip (joinOutChars (numberFromChars (offset + 1)
        (((pyLinesChars (univNL e.content.toList)).drop offset).take limit))).asString
      = (intercalNL (numberFromChars (offset + 1)
          (((pyLinesChars (univNL e.content.toList)).drop offset).take limit))).asString := by
    by_cases hselnil :
        ((pyLinesChars (univNL e.content.toList)).drop offset).take limit = []
    · rw [hselnil]
      rfl
    · have hfmtne := numberFromChars_ne_nil (offset + 1) _ hselnil
      have hlast2 : endsNonWS ((numberFromChars (offset + 1)
          (((pyLinesChars (univNL e.content.toList)).drop offset).take limit)).getLastD [])
          = true := by
        rcases hlast with hl | hl
        · exact absurd hl hselnil
        · exact endsNonWS_last_numberFromChars _ _ hselnil hl
      unfold pyRstrip
      rw [toList_asString, joinOutChars_eq_intercalNL _ hfmtne, rstripChars_append_newline,
        rstripChars_of_endsNonWS _ (endsNonWS_intercalNL _ hfmtne hlast2)]
  unfold BaseSandbox.read
  rw [hscript]
  dsimp only
  rw [hout]
  have hpc : pyContains "Error: File not found"
      (intercalNL (numberFromChars (offset + 1)
        (((pyLinesChars (univNL e.content.toList)).drop offset).take limit))).asString
      = false := by
    unfold pyContains
    rw [toList_asString]
    exact hmark
  rw [hpc]
  simp

theorem map_toList_map_asString (X : List (List Char)) :
    (X.map List.asString).map String.toList = X := by
  rw [List.map_map]
  have hcomp : String.toList ∘ List.asString = id := funext fun l => toList_asString l
  rw [hcomp, List.map_id]

theorem getLastD_map {α β : Type} (f : α → β) (l : List α) (d : α) :
    (l.map f).getLastD (f d) = f (l.getLastD d) := by
  induction l generalizing d with
  | nil => rfl
  | cons a t ih => rw [List.map_cons, List.getLastD_cons, List.getLastD_cons, ih]

/-! ## Claim C6 -/

/-- C6 counterexample: the claim quantifies over every existing
non-empty file, but a file whose text is the literal
`"Error: File not found"` is not returned as its formatted window —
`BaseSandbox.read` sees the marker in the script output and reports
the file as missing (the behaviour proved as C10). -/
theorem c6_marker_file_counterexample :
    Fs.isFile ⟨[⟨"/f", false, "Error: File not found", 3⟩], []⟩ "/f" = true
      ∧ BaseSandbox.read ⟨[⟨"/f", false, "Error: File not found", 3⟩], []⟩ "/f" 0 2000
        ≠ joinLines (numberLines 1 (((pyLines "Error: File not found").drop 0).take 2000)) := by
  refine ⟨by decide, by decide⟩

theorem sentinel_rstrip :
    pyRstrip "System reminder: File exists but has empty contents\n"
      = "System reminder: File exists but has empty contents" := by decide

theorem sentinel_no_marker :
    pyContains "Error: File not found"
      "System reminder: File exists but has empty contents" = false := by decide

/-- C6 (amended): for an existing non-empty regular file,
`BaseSandbox.read` returns the window `[offset+1, offset+limit]` of the
file's (text-mode-decoded) lines, each prefixed by its 1-based line
number right-aligned in a width-6 field and tab-separated from the
content, numbering starting at `offset+1` — provided the formatted
window does not contain the literal `"Error: File not found"` (then the
file is misreported as missing, see C10) and the last selected line
does not end in whitespace (`read` right-strips its output, which would
clip such a line).  A missing file (or a directory) yields the
value-level not-found error string, and an existing zero-byte file
yields the sentinel empty-file notice, both unconditionally. -/
theorem c6_read_contract (fs : Fs) (p : String) (e : FsEntry) (offset limit : Nat)
    (hfind : fs.find p = some e) (hdir : e.is_dir = false) (hne : e.content ≠ "")
    (hlast : ((pyLines e.content).drop offset).take limit = []
        ∨ endsNonWS (((((pyLines e.content).drop offset).take limit).getLastD "").toList) = true)
    (hmark : pyContains "Error: File not found"
        (joinLines (numberLines (offset + 1)
          (((pyLines e.content).drop offset).take limit))) = false) :
    BaseSandbox.read fs p offset limit
        = joinLines (numberLines (offset + 1) (((pyLines e.content).drop offset).take limit))
      ∧ (∀ (fs2 : Fs) (p2 : String) (off lim : Nat), Fs.isFile fs2 p2 = false →
          BaseSandbox.read fs2 p2 off lim = readNotFoundError p2)
      ∧ (∀ (fs2 : Fs) (p2 : String) (e2 : FsEntry) (off lim : Nat),
          fs2.find p2 = some e2 → e2.is_dir = false → e2.content = "" →
          BaseSandbox.read fs2 p2 off lim
            = "System reminder: File exists but has empty contents") := by
  have hW : (((pyLines e.content).drop offset).take limit).map String.toList
      = ((pyLinesChars (univNL e.content.toList)).drop offset).take limit := by
    unfold pyLines
    rw [List.map_take, List.map_drop, map_toList_map_asString]
  refine ⟨?_, ?_, ?_⟩
  · have hlast2 : ((pyLinesChars (univNL e.content.toList)).drop offset).take limit = []
        ∨ endsNonWS ((((pyLinesChars (univNL e.content.toList)).drop offset).take limit).getLastD [])
          = true := by
      rcases hlast with hl | hl
      · left
        rw [← hW, hl]
        rfl
      · right
        rw [← hW]
        rw [show ([] : List Char) = String.toList "" from rfl, getLastD_map]
        exact hl
    have hmark2 : containsChars ("Error: File not found".toList)
        (intercalNL (numberFromChars (offset + 1)
          (((pyLinesChars (univNL e.content.toList)).drop offset).take limit))) = false := by
      unfold pyContains joinLines numberLines at hmark
      rw [toList_asString, map_toList_map_asString, hW] at hmark
      exact hmark
    have key := read_window_eq fs p e offset limit hfind hdir hne hlast2 hmark2
    rw [key]
    unfold joinLines numberLines
    rw [map_toList_map_asString, hW]
  · intro fs2 p2 off lim hisf
    unfold BaseSandbox.read readScript
    cases hf : fs2.find p2 with
    | none => simp
    | some e2 =>
      have hd : e2.is_dir = true := by
        unfold Fs.isFile at hisf
        rw [hf] at hisf
        simpa using hisf
      simp [hd]
  · intro fs2 p2 e2 off lim hf hd2 hc2
    unfold BaseSandbox.read readScript
    rw [hf]
    simp [hd2, hc2, sentinel_rstrip, sentinel_no_marker]

/-- Witness for C6 at a concrete input: the two-line file `"a\nb"`. -/
theorem c6_read_contract_witness :
    Fs.find ⟨[⟨"/f", false, "a\nb", 0⟩], []⟩ "/f" = some ⟨"/f", false, "a\nb", 0⟩
      ∧ BaseSandbox.read ⟨[⟨"/f", false, "a\nb", 0⟩], []⟩ "/f" 0 2000
        = joinLines (numberLines 1 (((pyLines "a\nb").drop 0).take 2000)) := by
  refine ⟨by decide, ?_⟩
  exact (c6_read_contract ⟨[⟨"/f", false, "a\nb", 0⟩], []⟩ "/f" ⟨"/f", false, "a\nb", 0⟩ 0 2000
    (by decide) rfl (by decide) (Or.inr (by decide)) (by decide)).1

/-! ## Claim C4 -/

/-- C4 counterexample: the round-trip fails as stated.  The content
`"Error: File not found"` crosses the write boundary byte-exactly
(base64), but reading it back yields the uniform not-found error
string, so stripping the line-number formatting cannot recover the
content. -/
theorem c4_roundtrip_counterexample :
    (BaseSandbox.write ⟨[], []⟩ "/f" "Error: File not found").1.error = none
      ∧ stripLineNumberPrefixes
          (BaseSandbox.read (BaseSandbox.write ⟨[], []⟩ "/f" "Error: File not found").2
            "/f" 0 2000)
        ≠ "Error: File not found" := by
  refine ⟨by rfl, by decide⟩

theorem write_fresh (fs : Fs) (p c : String) (hex : fs.pathExists p = false) :
    BaseSandbox.write fs p c = (⟨some p, none, none⟩, fs.createFile p c) := by
  unfold BaseSandbox.write writeScript
  rw [hex]
  simp [pyContains_errormark_empty]

theorem find_createFile_self (fs : Fs) (p c : String) (h : fs.find p = none) :
    (fs.createFile p c).find p = some ⟨p, false, c, 0⟩ := by
  unfold Fs.find Fs.createFile at *
  rw [List.find?_append, h]
  simp [List.find?]

theorem endsNonWS_ne_nil (l : List Char) (h : endsNonWS l = true) : l ≠ [] := by
  intro hnil
  rw [hnil] at h
  simp [endsNonWS] at h

theorem cr_not_mem_intercalNL (ls : List (List Char)) (h : ∀ l ∈ ls, '\r' ∉ l) :
    '\r' ∉ intercalNL ls := by
  induction ls with
  | nil => simp [intercalNL]
  | cons l t ih =>
    cases t with
    | nil => exact h l (List.mem_cons_self _ _)
    | cons l2 t2 =>
      show '\r' ∉ l ++ '\n' :: intercalNL (l2 :: t2)
      intro hm
      rcases List.mem_append.mp hm with hm | hm
      · exact h l (List.mem_cons_self _ _) hm
      · rcases List.mem_cons.mp hm with hm | hm
        · exact absurd hm (by decide)
        · exact ih (fun x hx => h x (List.mem_cons_of_mem _ hx)) hm

theorem pyLinesChars_of_lines (parts : List (List Char)) (hnz : parts ≠ [])
    (hnl : ∀ l ∈ parts, '\n' ∉ l) (hlastne : parts.getLastD [] ≠ []) :
    pyLinesChars (intercalNL parts) = parts := by
  unfold pyLinesChars
  rw [splitLinesChars_intercalNL parts hnz hnl]
  cases hgl : parts.getLast? with
  | none => simp only [hgl]
  | some L =>
    have hL : L = parts.getLastD [] := by
      rw [List.getLastD_eq_getLast?, hgl]
      rfl
    simp only [hgl]
    rw [if_neg (by rw [hL]; exact hlastne)]

/-- C4 (amended): the write/read round-trip recovers the content
exactly for every content assembled as the newline-join of a nonempty
list of lines that are free of newline and carriage-return characters
(text-mode reads rewrite `\r`), number at most the read window's 2000
lines, whose last line does not end in whitespace (`read` right-strips
its output), and whose numbered formatting does not contain the literal
`"Error: File not found"` (see C10).  Arbitrary shell metacharacters,
quotes and tabs in the lines are fine: the content itself crosses the
boundary base64-encoded. -/
theorem c4_write_read_roundtrip (fs : Fs) (p : String) (ls : List String)
    (hfresh : fs.find p = none) (hnz : ls ≠ [])
    (hchars : ∀ l ∈ ls, ∀ c ∈ l.toList, c ≠ '\n' ∧ c ≠ '\r')
    (hlen : ls.length ≤ 2000)
    (hlast : endsNonWS (ls.getLastD "").toList = true)
    (hmark : pyContains "Error: File not found" (joinLines (numberLines 1 ls)) = false) :
    stripLineNumberPrefixes
        (BaseSandbox.read (BaseSandbox.write fs p (joinLines ls)).2 p 0 2000)
      = joinLines ls := by
  have hex : fs.pathExists p = false := by
    unfold Fs.pathExists
    rw [hfresh]
    rfl
  have hnlparts : ∀ l ∈ ls.map String.toList, '\n' ∉ l := by
    intro l hl hm
    rcases List.mem_map.mp hl with ⟨s, hs, rfl⟩
    exact ((hchars s hs '\n' hm).1) rfl
  have hcrparts : ∀ l ∈ ls.map String.toList, '\r' ∉ l := by
    intro l hl hm
    rcases List.mem_map.mp hl with ⟨s, hs, rfl⟩
    exact ((hchars s hs '\r' hm).2) rfl
  have hpartsnz : ls.map String.toList ≠ [] := by
    intro hh
    exact hnz (List.map_eq_nil_iff.mp hh)
  have hlastD : (ls.map String.toList).getLastD [] = (ls.getLastD "").toList := by
    rw [show ([] : List Char) = String.toList "" from rfl, getLastD_map]
  have hlastne : (ls.map String.toList).getLastD [] ≠ [] := by
    rw [hlastD]
    exact endsNonWS_ne_nil _ hlast
  have hcontent : (joinLines ls).toList = intercalNL (ls.map String.toList) := by
    unfold joinLines
    rw [toList_asString]
  have hcontent_ne : joinLines ls ≠ "" := by
    intro hh
    have := congrArg String.toList hh
    rw [hcontent] at this
    have hinz : intercalNL (ls.map String.toList) ≠ [] := by
      intro hz
      cases hmap : ls.map String.toList with
      | nil => exact hpartsnz hmap
      | cons a t =>
        rw [hmap] at hz
        cases t with
        | nil =>
          have : a ≠ [] := by
            rw [show a = (ls.map String.toList).getLastD [] by rw [hmap]; rfl]
            exact hlastne
          exact this hz
        | cons b t2 =>
          have : intercalNL (a :: b :: t2) = a ++ '\n' :: intercalNL (b :: t2) := rfl
          rw [this] at hz
          simp at hz
    exact hinz this
  have hsel : ((pyLinesChars (univNL (joinLines ls).toList)).drop 0).take 2000
      = ls.map String.toList := by
    rw [hcontent, univNL_no_cr _ (cr_not_mem_intercalNL _ hcrparts),
      pyLinesChars_of_lines _ hpartsnz hnlparts hlastne, List.drop_zero]
    exact List.take_of_length_le (by rw [List.length_map]; exact hlen)
  have hwrite : (BaseSandbox.write fs p (joinLines ls)).2 = fs.createFile p (joinLines ls) := by
    rw [write_fresh fs p _ hex]
  have hfind2 := find_createFile_self fs p (joinLines ls) hfresh
  have hmark2 : containsChars ("Error: File not found".toList)
      (intercalNL (numberFromChars (0 + 1)
        (((pyLinesChars (univNL (joinLines ls).toList)).drop 0).take 2000))) = false := by
    rw [hsel]
    unfold pyContains joinLines numberLines at hmark
    rw [toList_asString, map_toList_map_asString] at hmark
    exact hmark
  have hlast2 : ((pyLinesChars (univNL (joinLines ls).toList)).drop 0).take 2000 = []
      ∨ endsNonWS ((((pyLinesChars (univNL (joinLines ls).toList)).drop 0).take 2000).getLastD [])
        = true := by
    right
    rw [hsel, hlastD]
    exact hlast
  have hread := read_window_eq (fs.createFile p (joinLines ls)) p
    ⟨p, false, joinLines ls, 0⟩ 0 2000 hfind2 rfl hcontent_ne hlast2 hmark2
  rw [hwrite, hread, hsel]
  unfold stripLineNumberPrefixes
  rw [toList_asString,
    splitLinesChars_intercalNL _ (numberFromChars_ne_nil _ _ hpartsnz)
      (nl_free_numberFromChars _ _ hnlparts),
    map_stripTabPrefix_numberFromChars]
  rfl

/-- Witness for C4 at a concrete input: two lines containing shell
metacharacters and double quotes. -/
theorem c4_write_read_roundtrip_witness :
    Fs.find ⟨[], []⟩ "/f" = none
      ∧ stripLineNumberPrefixes
          (BaseSandbox.read
            (BaseSandbox.write ⟨[], []⟩ "/f"
              (joinLines ["echo $HOME | grep \"x\" > out", "b&c"])).2 "/f" 0 2000)
        = joinLines ["echo $HOME | grep \"x\" > out", "b&c"] := by
  refine ⟨by decide, ?_⟩
  exact c4_write_read_roundtrip ⟨[], []⟩ "/f" ["echo $HOME | grep \"x\" > out", "b&c"]
    (by decide) (by decide) (by decide) (by decide) (by decide) (by decide)

/-! ## Claim C3 -/

theorem stripPrefixChars_append (pre r : List Char) :
    stripPrefixChars pre (pre ++ r) = some r := by
  unfold stripPrefixChars
  rw [if_pos (List.isPrefixOf_iff_prefix.mpr (List.prefix_append pre r))]
  rw [List.drop_left]

theorem splitFirstChars_at (h : Char) (sep' : List Char) (pre r : List Char)
    (hpre : ∀ c ∈ pre, c ≠ h) :
    splitFirstChars (h :: sep') (pre ++ ((h :: sep') ++ r)) = some (pre, r) := by
  induction pre with
  | nil =>
    rw [List.nil_append]
    show splitFirstChars (h :: sep') ((h :: sep') ++ r) = some ([], r)
    have hp : (h :: sep').isPrefixOf ((h :: sep') ++ r) = true :=
      List.isPrefixOf_iff_prefix.mpr (List.prefix_append _ _)
    have hdrop : ((h :: sep') ++ r).drop (h :: sep').length = r := List.drop_left _ _
    cases hsh : (h :: sep') ++ r with
    | nil => simp at hsh
    | cons x xs =>
      unfold splitFirstChars
      rw [← hsh, if_pos hp, hdrop]
  | cons c t ih =>
    have hc : (h == c) = false := by
      have hne := hpre c (List.mem_cons_self c t)
      exact beq_eq_false_iff_ne.mpr (Ne.symm hne)
    have ht : ∀ x ∈ t, x ≠ h := fun x hx => hpre x (List.mem_cons_of_mem _ hx)
    rw [List.cons_append]
    show splitFirstChars (h :: sep') (c :: (t ++ ((h :: sep') ++ r))) = some (c :: t, r)
    unfold splitFirstChars
    have hnp : (h :: sep').isPrefixOf (c :: (t ++ ((h :: sep') ++ r))) = false := by
      show ((h == c) && sep'.isPrefixOf (t ++ ((h :: sep') ++ r))) = false
      rw [hc]
      rfl
    rw [if_neg (by rw [hnp]; exact Bool.false_ne_true)]
    rw [ih ht]

theorem jsonSafeChar_basic (c : Char) (h : jsonSafeChar c = true) :
    c ≠ '"' ∧ c ≠ '\n' ∧ c ≠ '\r' := by
  unfold jsonSafeChar at h
  simp only [Bool.and_eq_true, decide_eq_true_eq] at h
  obtain ⟨⟨h1, h2⟩, h3⟩ := h
  refine ⟨h1, ?_, ?_⟩
  · intro e
    subst e
    exact absurd h3 (by decide)
  · intro e
    subst e
    exact absurd h3 (by decide)

theorem jsonSafeName_chars (m : String) (hs : jsonSafeName m = true) :
    ∀ c ∈ m.toList, c ≠ '"' ∧ c ≠ '\n' ∧ c ≠ '\r' := by
  intro c hc
  unfold jsonSafeName at hs
  exact jsonSafeChar_basic c (List.all_eq_true.mp hs c hc)

theorem comma_not_mem_natToDecimal (n : Nat) : ∀ c ∈ natToDecimal n, c ≠ ',' := by
  intro c hc
  rcases mem_natToDecimal n c hc with ⟨d, hd, rfl⟩
  exact (digitChar_props d hd).2.2.1

theorem comma_not_mem_mtimeRepr (i : Int) : ∀ c ∈ mtimeRepr i, c ≠ ',' := by
  intro c hc
  unfold mtimeRepr intToDecimal at hc
  rcases List.mem_append.mp hc with hc | hc
  · by_cases hneg : i < 0
    · rw [if_pos hneg] at hc
      rcases List.mem_cons.mp hc with hc | hc
      · rw [hc]; decide
      · exact comma_not_mem_natToDecimal _ c hc
    · rw [if_neg hneg] at hc
      exact comma_not_mem_natToDecimal _ c hc
  · rcases List.mem_cons.mp hc with hc | hc
    · rw [hc]; decide
    · rcases List.mem_cons.mp hc with hc | hc
      · rw [hc]; decide
      · simp at hc

/-- `json.loads` inverts the glob script's emission on any name
`json.dumps` emits unescaped, yielding the two fields the caller
keeps. -/
theorem parseGlobLine_emit (m : String) (sz : Nat) (mt : Int) (d : Bool)
    (hs : jsonSafeName m = true) :
    parseGlobLine (globJsonLineChars m.toList sz mt d) = some (m.toList, d) := by
  unfold parseGlobLine globJsonLineChars
  simp only [List.append_assoc]
  rw [stripPrefixChars_append, Option.some_bind]
  rw [show "\", \"size\": ".toList = '"' :: ", \"size\": ".toList from rfl]
  rw [splitFirstChars_at '"' _ _ _ (fun c hc => (jsonSafeName_chars m hs c hc).1),
    Option.some_bind]
  rw [show ", \"mtime\": ".toList = ',' :: " \"mtime\": ".toList from rfl]
  rw [splitFirstChars_at ',' _ _ _ (comma_not_mem_natToDecimal sz), Option.some_bind]
  rw [show ", \"is_dir\": ".toList = ',' :: " \"is_dir\": ".toList from rfl]
  rw [splitFirstChars_at ',' _ _ _ (comma_not_mem_mtimeRepr mt), Option.some_bind]
  cases d with
  | true =>
    dsimp only
    rw [show (if (true = true) then "true\x7d".toList else "false\x7d".toList)
          = "true\x7d".toList from rfl]
    rw [if_pos (rfl : "true\x7d".toList = "true\x7d".toList)]
  | false =>
    dsimp only
    rw [show (if (false = true) then "true\x7d".toList else "false\x7d".toList)
          = "false\x7d".toList from rfl]
    rw [if_neg (show ¬("false\x7d".toList = "true\x7d".toList) by decide)]
    rw [if_pos (rfl : "false\x7d".toList = "false\x7d".toList)]

theorem mem_insertSorted (x y : String) (l : List String) :
    y ∈ insertSorted x l ↔ y = x ∨ y ∈ l := by
  induction l with
  | nil => simp [insertSorted]
  | cons a t ih =>
    unfold insertSorted
    by_cases hle : strLe x a = true
    · rw [if_pos hle]
      simp [List.mem_cons]
    · rw [if_neg hle]
      simp [List.mem_cons, ih]
      tauto

theorem mem_sortStr (y : String) (l : List String) : y ∈ sortStr l ↔ y ∈ l := by
  induction l with
  | nil => simp [sortStr]
  | cons a t ih =>
    show y ∈ insertSorted a (sortStr t) ↔ _
    rw [mem_insertSorted]
    simp [List.mem_cons, ih]

theorem charListLe_total (s : List Char) : ∀ t, charListLe s t = true ∨ charListLe t s = true := by
  induction s with
  | nil => intro t; exact Or.inl rfl
  | cons a s ih =>
    intro t
    cases t with
    | nil => exact Or.inr rfl
    | cons b t2 =>
      unfold charListLe
      rcases Nat.lt_trichotomy a.toNat b.toNat with h | h | h
      · left
        rw [if_pos h]
      · rw [if_neg (by omega), if_neg (by omega), if_neg (by omega), if_neg (by omega)]
        exact ih t2
      · right
        rw [if_pos h]

theorem strLe_total (a b : String) : strLe a b = true ∨ strLe b a = true :=
  charListLe_total a.toList b.toList

theorem insertSorted_cons_of_le (x z : String) (t2 : List String) (hxz : strLe x z = true) :
    insertSorted x (z :: t2) = x :: z :: t2 := by
  show (if strLe x z = true then x :: z :: t2 else z :: insertSorted x t2) = x :: z :: t2
  rw [if_pos hxz]

theorem insertSorted_cons_of_gt (x z : String) (t2 : List String) (hxz : ¬strLe x z = true) :
    insertSorted x (z :: t2) = z :: insertSorted x t2 := by
  show (if strLe x z = true then x :: z :: t2 else z :: insertSorted x t2)
    = z :: insertSorted x t2
  rw [if_neg hxz]

theorem chain'_insertSorted (x : String) (l : List String)
    (h : List.Chain' (fun a b => strLe a b = true) l) :
    List.Chain' (fun a b => strLe a b = true) (insertSorted x l) := by
  induction l with
  | nil => exact List.chain'_singleton x
  | cons y t ih =>
    by_cases hle : strLe x y = true
    · rw [insertSorted_cons_of_le x y t hle]
      exact List.chain'_cons.mpr ⟨hle, h⟩
    · rw [insertSorted_cons_of_gt x y t hle]
      have hyx : strLe y x = true := (strLe_total x y).resolve_left hle
      cases t with
      | nil =>
        show List.Chain' _ (y :: insertSorted x [])
        unfold insertSorted
        exact List.chain'_cons.mpr ⟨hyx, List.chain'_singleton x⟩
      | cons z t2 =>
        have hchain := List.chain'_cons.mp h
        have ihz := ih hchain.2
        by_cases hxz : strLe x z = true
        · rw [insertSorted_cons_of_le x z t2 hxz] at ihz ⊢
          exact List.chain'_cons.mpr ⟨hyx, ihz⟩
        · rw [insertSorted_cons_of_gt x z t2 hxz] at ihz ⊢
          exact List.chain'_cons.mpr ⟨hchain.1, ihz⟩

theorem sortStr_chain (l : List String) :
    List.Chain' (fun a b => strLe a b = true) (sortStr l) := by
  induction l with
  | nil => exact List.chain'_nil
  | cons a t ih => exact chain'_insertSorted a (sortStr t) ih

theorem globEmit_all_found (fs : Fs) (base : String) (L : List String)
    (h : ∀ m ∈ L, (fs.find (pathJoin base m)).isSome = true) :
    globEmit fs base L = (L.map (globLineOf fs base), 0) := by
  induction L with
  | nil => rfl
  | cons m t ih =>
    have hm := h m (List.mem_cons_self _ _)
    cases hf : fs.find (pathJoin base m) with
    | none => rw [hf] at hm; simp at hm
    | some e =>
      unfold globEmit
      rw [hf, ih (fun x hx => h x (List.mem_cons_of_mem _ hx))]
      simp [globLineOf, hf]

theorem nl_not_mem_mtimeRepr (i : Int) : ∀ c ∈ mtimeRepr i, c ≠ '\n' := by
  intro c hc
  unfold mtimeRepr intToDecimal at hc
  rcases List.mem_append.mp hc with hc | hc
  · by_cases hneg : i < 0
    · rw [if_pos hneg] at hc
      rcases List.mem_cons.mp hc with hc | hc
      · rw [hc]; decide
      · rcases mem_natToDecimal _ c hc with ⟨d, hd, rfl⟩
        exact (digitChar_props d hd).2.1
    · rw [if_neg hneg] at hc
      rcases mem_natToDecimal _ c hc with ⟨d, hd, rfl⟩
      exact (digitChar_props d hd).2.1
  · rcases List.mem_cons.mp hc with hc | hc
    · rw [hc]; decide
    · rcases List.mem_cons.mp hc with hc | hc
      · rw [hc]; decide
      · simp at hc

theorem nl_not_mem_globJsonLineChars (m : String) (sz : Nat) (mt : Int) (d : Bool)
    (hs : jsonSafeName m = true) :
    '\n' ∉ globJsonLineChars m.toList sz mt d := by
  intro hm
  unfold globJsonLineChars at hm
  simp only [List.append_assoc, List.mem_append] at hm
  rcases hm with hm | hm | hm | hm | hm | hm | hm
  · exact absurd hm (by decide)
  · exact (jsonSafeName_chars m hs '\n' hm).2.1 rfl
  · exact absurd hm (by decide)
  · rcases mem_natToDecimal _ _ hm with ⟨dd, hdd, he⟩
    exact (digitChar_props dd hdd).2.1 he.symm
  · exact absurd hm (by decide)
  · exact nl_not_mem_mtimeRepr mt '\n' hm rfl
  · rcases hm with hm | hm
    · exact absurd hm (by decide)
    · cases d with
      | true => exact absurd hm (by decide)
      | false => exact absurd hm (by decide)

theorem globJsonLineChars_endsNonWS (m : List Char) (sz : Nat) (mt : Int) (d : Bool) :
    endsNonWS (globJsonLineChars m sz mt d) = true := by
  unfold globJsonLineChars
  cases d with
  | true => exact endsNonWS_append _ _ (by decide)
  | false => exact endsNonWS_append _ _ (by decide)

theorem globJsonLineChars_head (m : List Char) (sz : Nat) (mt : Int) (d : Bool) :
    ∃ t, globJsonLineChars m sz mt d = '\x7b' :: t := by
  unfold globJsonLineChars
  rw [show "\x7b\"path\": \"".toList = '\x7b' :: "\"path\": \"".toList from rfl]
  simp only [List.cons_append]
  exact ⟨_, rfl⟩

theorem endsNonWS_getLastD_of_forall (L : List (List Char)) (hne : L ≠ [])
    (h : ∀ l ∈ L, endsNonWS l = true) : endsNonWS (L.getLastD []) = true := by
  induction L with
  | nil => exact absurd rfl hne
  | cons a t ih =>
    cases t with
    | nil =>
      rw [List.getLastD_cons]
      exact h a (List.mem_cons_self _ _)
    | cons b t2 =>
      rw [List.getLastD_cons, List.getLastD_cons]
      have := ih (by simp) (fun x hx => h x (List.mem_cons_of_mem _ hx))
      rw [List.getLastD_cons] at this
      exact this

theorem dropWhile_intercalNL_head (c : Char) (t : List Char) (r : List (List Char))
    (hc : pyIsSpace c = false) :
    List.dropWhile pyIsSpace (intercalNL ((c :: t) :: r)) = intercalNL ((c :: t) :: r) := by
  cases r with
  | nil => exact dropWhile_nonws_head c t hc
  | cons l2 t2 =>
    show List.dropWhile pyIsSpace ((c :: t) ++ '\n' :: intercalNL (l2 :: t2))
      = (c :: t) ++ '\n' :: intercalNL (l2 :: t2)
    rw [List.cons_append]
    exact dropWhile_nonws_head _ _ hc

theorem glob_parse_map (fs : Fs) (path : String) (L : List String)
    (hfound : ∀ m ∈ L, (fs.find (pathJoin path m)).isSome = true)
    (hsafe : ∀ m ∈ L, jsonSafeName m = true) :
    ((L.map (globLineOf fs path)).map List.asString).filterMap
        (fun line => (parseGlobLine line.toList).map
          (fun pd => (⟨pd.1.asString, pd.2, none, none⟩ : FileInfo)))
      = L.map (globEntryInfo fs path) := by
  induction L with
  | nil => rfl
  | cons m t ih =>
    have hm := hfound m (List.mem_cons_self _ _)
    cases hf : fs.find (pathJoin path m) with
    | none => rw [hf] at hm; simp at hm
    | some e =>
      simp only [List.map_cons, List.filterMap_cons]
      rw [show globLineOf fs path m = globJsonLineChars m.toList e.statSize e.mtime e.is_dir
            by unfold globLineOf; rw [hf]]
      rw [toList_asString, parseGlobLine_emit m _ _ _ (hsafe m (List.mem_cons_self _ _))]
      rw [ih (fun x hx => hfound x (List.mem_cons_of_mem _ hx))
          (fun x hx => hsafe x (List.mem_cons_of_mem _ hx))]
      simp only [Option.map_some']
      rw [show (globEntryInfo fs path m)
            = ⟨m.toList.asString, e.is_dir, none, none⟩
            by unfold globEntryInfo; rw [hf, asString_toList]]

theorem intercalNL_cons_head (c : Char) (t : List Char) (r : List (List Char)) :
    ∃ w, intercalNL ((c :: t) :: r) = c :: w := by
  cases r with
  | nil => exact ⟨t, rfl⟩
  | cons l2 t2 =>
    refine ⟨t ++ '\n' :: intercalNL (l2 :: t2), ?_⟩
    show (c :: t) ++ '\n' :: intercalNL (l2 :: t2) = _
    rw [List.cons_append]

/-- C3 counterexample: the claim says each returned `FileInfo` carries
the size and modification-time metadata of the matched entry.  The
glob script gathers and serializes both, but the parsing loop of
`BaseSandbox.glob_info` keeps only `path` and `is_dir`: for a matched
5-byte file the returned entry has no size and no modification
time. -/
theorem c3_metadata_dropped_counterexample :
    BaseSandbox.glob_info ⟨[⟨"/a.txt", false, "hello", 7⟩], []⟩ "/" ["a.txt"]
        = [⟨"a.txt", false, none, none⟩]
      ∧ FsEntry.statSize ⟨"/a.txt", false, "hello", 7⟩ = 5
      ∧ (BaseSandbox.glob_info ⟨[⟨"/a.txt", false, "hello", 7⟩], []⟩ "/" ["a.txt"]).map
          FileInfo.size ≠ [some 5] := by
  refine ⟨by decide, by rfl, by decide⟩

/-- The parsing side of `BaseSandbox.glob_info`, for any list of
resolving, JSON-safe match names. -/
theorem glob_info_parse_pipeline (fs : Fs) (path : String) (L : List String)
    (hfound2 : ∀ m ∈ L, (fs.find (pathJoin path m)).isSome = true)
    (hsafe2 : ∀ m ∈ L, jsonSafeName m = true) :
    (if pyStrip (joinOutChars (L.map (globLineOf fs path))).asString = "" then []
     else (pySplitNL (pyStrip (joinOutChars (L.map (globLineOf fs path))).asString)).filterMap
       (fun line => (parseGlobLine line.toList).map
         (fun pd => (⟨pd.1.asString, pd.2, none, none⟩ : FileInfo))))
      = L.map (globEntryInfo fs path) := by
  cases L with
  | nil => rfl
  | cons m0 rest =>
    have hlines_ne : (m0 :: rest).map (globLineOf fs path) ≠ [] := by simp
    have hm0found := hfound2 m0 (List.mem_cons_self _ _)
    obtain ⟨e0, hf0⟩ : ∃ e, fs.find (pathJoin path m0) = some e := by
      cases hff : fs.find (pathJoin path m0) with
      | none => rw [hff] at hm0found; simp at hm0found
      | some e => exact ⟨e, rfl⟩
    have hline0 : globLineOf fs path m0
        = globJsonLineChars m0.toList e0.statSize e0.mtime e0.is_dir := by
      unfold globLineOf
      rw [hf0]
    obtain ⟨t0, ht0⟩ := globJsonLineChars_head m0.toList e0.statSize e0.mtime e0.is_dir
    have hendall : ∀ l ∈ (m0 :: rest).map (globLineOf fs path), endsNonWS l = true := by
      intro l hl
      rcases List.mem_map.mp hl with ⟨m, hm, rfl⟩
      have hmf := hfound2 m hm
      obtain ⟨e, hf⟩ : ∃ e, fs.find (pathJoin path m) = some e := by
        cases hff : fs.find (pathJoin path m) with
        | none => rw [hff] at hmf; simp at hmf
        | some e => exact ⟨e, rfl⟩
      rw [show globLineOf fs path m = globJsonLineChars m.toList e.statSize e.mtime e.is_dir
            by unfold globLineOf; rw [hf]]
      exact globJsonLineChars_endsNonWS _ _ _ _
    have hnlall : ∀ l ∈ (m0 :: rest).map (globLineOf fs path), '\n' ∉ l := by
      intro l hl
      rcases List.mem_map.mp hl with ⟨m, hm, rfl⟩
      have hmf := hfound2 m hm
      obtain ⟨e, hf⟩ : ∃ e, fs.find (pathJoin path m) = some e := by
        cases hff : fs.find (pathJoin path m) with
        | none => rw [hff] at hmf; simp at hmf
        | some e => exact ⟨e, rfl⟩
      rw [show globLineOf fs path m = globJsonLineChars m.toList e.statSize e.mtime e.is_dir
            by unfold globLineOf; rw [hf]]
      exact nl_not_mem_globJsonLineChars m _ _ _ (hsafe2 m hm)
    have hstrip : pyStrip (joinOutChars ((m0 :: rest).map (globLineOf fs path))).asString
        = (intercalNL ((m0 :: rest).map (globLineOf fs path))).asString := by
      unfold pyStrip
      rw [toList_asString, joinOutChars_eq_intercalNL _ hlines_ne,
        rstripChars_append_newline,
        rstripChars_of_endsNonWS _ (endsNonWS_intercalNL _ hlines_ne
          (endsNonWS_getLastD_of_forall _ hlines_ne hendall))]
      rw [List.map_cons, hline0, ht0]
      rw [dropWhile_intercalNL_head '\x7b' t0 _ (by decide)]
    rw [hstrip]
    obtain ⟨w0, hw0⟩ : ∃ w, intercalNL ((m0 :: rest).map (globLineOf fs path))
        = '\x7b' :: w := by
      rw [List.map_cons, hline0, ht0]
      exact intercalNL_cons_head _ _ _
    have hne_str : (intercalNL ((m0 :: rest).map (globLineOf fs path))).asString ≠ "" := by
      intro hh
      have := congrArg String.toList hh
      rw [toList_asString, hw0] at this
      simp at this
    rw [if_neg hne_str]
    have hsplit : pySplitNL (intercalNL ((m0 :: rest).map (globLineOf fs path))).asString
        = ((m0 :: rest).map (globLineOf fs path)).map List.asString := by
      unfold pySplitNL
      rw [toList_asString, splitLinesChars_intercalNL _ hlines_ne hnlall]
    rw [hsplit]
    exact glob_parse_map fs path (m0 :: rest) hfound2 hsafe2

/-- C3 (amended): for a base directory and matches that resolve (with
names `json.dumps` emits unescaped), `BaseSandbox.glob_info` returns
one entry per match, sorted by name, each carrying the entry's `path`
and `is_dir` — but, contrary to the claim, no size and no
modification-time metadata: the script computes them, and the parser
discards them. -/
theorem c3_glob_info_sorted_no_metadata (fs : Fs) (path : String) (ms : List String)
    (hdir : fs.isDirPath path = true)
    (hfound : ∀ m ∈ ms, (fs.find (pathJoin path m)).isSome = true)
    (hsafe : ∀ m ∈ ms, jsonSafeName m = true) :
    BaseSandbox.glob_info fs path ms = (sortStr ms).map (globEntryInfo fs path)
      ∧ List.Chain' (fun a b => strLe a.path b.path = true)
          (BaseSandbox.glob_info fs path ms)
      ∧ ∀ fi ∈ BaseSandbox.glob_info fs path ms,
          fi.size = none ∧ fi.modified_at = none := by
  have hfound2 : ∀ m ∈ sortStr ms, (fs.find (pathJoin path m)).isSome = true :=
    fun m hm => hfound m ((mem_sortStr m ms).mp hm)
  have hsafe2 : ∀ m ∈ sortStr ms, jsonSafeName m = true :=
    fun m hm => hsafe m ((mem_sortStr m ms).mp hm)
  have hscript : globScript fs path ms
      = ⟨(joinOutChars ((sortStr ms).map (globLineOf fs path))).asString, 0, false⟩ := by
    unfold globScript
    rw [hdir, globEmit_all_found fs path (sortStr ms) hfound2]
    rfl
  have hmain : BaseSandbox.glob_info fs path ms = (sortStr ms).map (globEntryInfo fs path) := by
    unfold BaseSandbox.glob_info
    rw [hscript]
    exact glob_info_parse_pipeline fs path (sortStr ms) hfound2 hsafe2
  refine ⟨hmain, ?_, ?_⟩
  · rw [hmain]
    exact (List.chain'_map (globEntryInfo fs path)).mpr (sortStr_chain ms)
  · rw [hmain]
    intro fi hfi
    rcases List.mem_map.mp hfi with ⟨m, hm, rfl⟩
    exact ⟨rfl, rfl⟩

/-- Witness for C3 at a concrete input: two matches under the root,
returned in sorted order with their `is_dir` flags and no metadata. -/
theorem c3_glob_info_sorted_no_metadata_witness :
    Fs.isDirPath ⟨[⟨"/a.txt", false, "hello", 7⟩, ⟨"/sub", true, "", 3⟩], []⟩ "/" = true
      ∧ BaseSandbox.glob_info ⟨[⟨"/a.txt", false, "hello", 7⟩, ⟨"/sub", true, "", 3⟩], []⟩
          "/" ["sub", "a.txt"]
        = (sortStr ["sub", "a.txt"]).map
            (globEntryInfo ⟨[⟨"/a.txt", false, "hello", 7⟩, ⟨"/sub", true, "", 3⟩], []⟩ "/") := by
  refine ⟨by decide, ?_⟩
  exact (c3_glob_info_sorted_no_metadata
    ⟨[⟨"/a.txt", false, "hello", 7⟩, ⟨"/sub", true, "", 3⟩], []⟩ "/" ["sub", "a.txt"]
    (by decide) (by decide) (by decide)).1

end DeepAgents
